/-
Verification of the multi-account email abstraction subsystem.

The definitions below are shallow embeddings of the Python source:
  - `src/app/utils.py` (EmailAccountManager),
  - `src/app/modules/google_clients/gmail_client.py` (GmailClient),
  - `src/app/modules/email_clients/gmail_client_adapter.py` (GmailClientAdapter),
  - `src/app/modules/email_clients/outlook_client_adapter.py` (OutlookClientAdapter),
  - `src/app/modules/google_clients/google_base_client.py` (GoogleBaseClient),
  - `src/app/services/email_service.py` (EmailService).

Python dictionaries are modelled as insertion-ordered association lists with
unique keys (matching CPython dict semantics); machine-level effects (logging,
file persistence) are modelled only where a claim observes them.
-/
import Mathlib

namespace ItsFriday

/-! ## Account directory model (`src/app/utils.py`)

`EmailAccountConfig` mirrors the fields of `app.config.EmailAccountConfig`
that the account-manager operations read or write; the credential-path fields
are opaque strings.  A directory is an insertion-ordered association list,
matching a Python `dict` keyed by account name. -/

structure EmailAccountConfig where
  name : String
  provider : String
  display_name : String
  enabled : Bool
  default_account : Bool
  deriving Repr, DecidableEq

abbrev Directory := List (String × EmailAccountConfig)

/-- Python `dict` lookup `d.get(k)` over an insertion-ordered assoc list. -/
def alistGet {β : Type} (l : List (String × β)) (k : String) : Option β :=
  match l with
  | [] => none
  | (k', v) :: rest => if k' = k then some v else alistGet rest k

/-- Python `d[k] = v`: replace in place if the key exists, otherwise append
(CPython dicts preserve insertion order). -/
def alistSet {β : Type} (l : List (String × β)) (k : String) (v : β) :
    List (String × β) :=
  match l with
  | [] => [(k, v)]
  | (k', v') :: rest =>
    if k' = k then (k', v) :: rest else (k', v') :: alistSet rest k v

/-- Python `del d[k]` (keys are unique, so deleting the first match). -/
def alistDel {β : Type} (l : List (String × β)) (k : String) : List (String × β) :=
  match l with
  | [] => []
  | (k', v) :: rest =>
    if k' = k then rest else (k', v) :: alistDel rest k

/-- Python `dict` lookup `accounts.get(name)` / `name in accounts`. -/
def dictGet (accounts : Directory) (name : String) : Option EmailAccountConfig :=
  alistGet accounts name

def dictSet (accounts : Directory) (name : String) (cfg : EmailAccountConfig) : Directory :=
  alistSet accounts name cfg

def dictDel (accounts : Directory) (name : String) : Directory :=
  alistDel accounts name

/-- The `for existing_config in accounts.values(): existing_config.default_account = False`
loop shared by `create_account_static` and `update_account_static`. -/
def clearDefaults (accounts : Directory) : Directory :=
  accounts.map (fun p => (p.1, { p.2 with default_account := false }))

/-- `EmailAccountManager.create_account_static`: if the new account is marked
default, clear `default_account` on every existing account, then insert. -/
def create_account_static (accounts : Directory) (cfg : EmailAccountConfig) : Directory :=
  dictSet (if cfg.default_account then clearDefaults accounts else accounts) cfg.name cfg

/-- Set `default_account := true` on the first account of the directory
(`next(iter(accounts.values())).default_account = True`). -/
def promoteFirst (accounts : Directory) : Directory :=
  match accounts with
  | [] => []
  | (k, v) :: rest => (k, { v with default_account := true }) :: rest

/-- `EmailAccountManager.delete_account_static`: remove the account; if it was
the default and accounts remain, promote the first remaining account. -/
def delete_account_static (accounts : Directory) (name : String) : Directory :=
  match dictGet accounts name with
  | none => accounts
  | some cfg =>
    let rest := dictDel accounts name
    if cfg.default_account ∧ rest ≠ [] then promoteFirst rest else rest

/-- The `updates` dictionary passed to `update_account_static`, restricted to
the configuration fields the account-manager claims observe; a `none` field is
absent from the dictionary. -/
structure AccountUpdates where
  provider : Option String := none
  display_name : Option String := none
  enabled : Option Bool := none
  default_account : Option Bool := none
  deriving Repr, DecidableEq

/-- The `setattr` loop of `update_account_static`, applied to one config. -/
def applyUpdates (cfg : EmailAccountConfig) (u : AccountUpdates) : EmailAccountConfig :=
  { cfg with
    provider := u.provider.getD cfg.provider
    display_name := u.display_name.getD cfg.display_name
    enabled := u.enabled.getD cfg.enabled
    default_account := u.default_account.getD cfg.default_account }

/-- The tail of `update_account_static` after the optional default-clearing
pass: look the target up again and apply the `setattr` loop. -/
def updateAfterClear (cleared : Directory) (name : String) (u : AccountUpdates) :
    Directory :=
  match dictGet cleared name with
  | some cfg => dictSet cleared name (applyUpdates cfg u)
  | none => cleared

/-- `EmailAccountManager.update_account_static`: no-op when the account is
absent; if `updates.get('default_account', False)` is truthy, first clear the
default flag on every account; then apply the field updates to the target. -/
def update_account_static (accounts : Directory) (name : String) (u : AccountUpdates) :
    Directory :=
  if (dictGet accounts name).isSome then
    updateAfterClear
      (if u.default_account.getD false then clearDefaults accounts else accounts) name u
  else accounts

/-- `EmailAccountManager.get_default_account_name_static`: the first enabled
account marked default, else the first enabled account, else `None`. -/
def get_default_account_name_static (accounts : Directory) : Option String :=
  match accounts.find? (fun p => p.2.default_account && p.2.enabled) with
  | some p => some p.1
  | none =>
    match accounts.find? (fun p => p.2.enabled) with
    | some p => some p.1
    | none => none

/-- One mutation of the account directory, as issued through the manager's
`add_account` / `update_account` / `delete_account` methods. -/
inductive DirOp where
  | add (cfg : EmailAccountConfig)
  | update (name : String) (u : AccountUpdates)
  | delete (name : String)
  deriving Repr

def applyDirOp (accounts : Directory) : DirOp → Directory
  | .add cfg => create_account_static accounts cfg
  | .update name u => update_account_static accounts name u
  | .delete name => delete_account_static accounts name

def runDirOps (accounts : Directory) (ops : List DirOp) : Directory :=
  ops.foldl applyDirOp accounts

/-- Number of accounts (enabled or not) whose `default_account` flag is set. -/
def defaultCount (accounts : Directory) : Nat :=
  (accounts.filter (fun p => p.2.default_account)).length

/-- Number of enabled accounts whose `default_account` flag is set. -/
def enabledDefaultCount (accounts : Directory) : Nat :=
  (accounts.filter (fun p => p.2.default_account && p.2.enabled)).length

/-- Contribution of one directory entry to `defaultCount`. -/
def dInd (p : String × EmailAccountConfig) : Nat :=
  if p.2.default_account then 1 else 0

/-! ## Manager state with the client cache (`EmailAccountManager`)

Client instances are identified by the order of their construction: the cache
maps an account name to the id of the instance built for it, and `next_client`
is the id the next constructed client will receive, so distinct constructions
always yield distinct instances, as in Python. -/

/-- Python `str.lower()` / `str.upper()` (ASCII case mapping, written over the
character list so that concrete instances reduce in the kernel). -/
def strLower (s : String) : String := String.mk (s.data.map Char.toLower)

def strUpper (s : String) : String := String.mk (s.data.map Char.toUpper)

abbrev ClientCache := List (String × Nat)

def clientsGet (clients : ClientCache) (name : String) : Option Nat :=
  alistGet clients name

def clientsSet (clients : ClientCache) (name : String) (c : Nat) : ClientCache :=
  alistSet clients name c

def clientsDel (clients : ClientCache) (name : String) : ClientCache :=
  alistDel clients name

structure ManagerState where
  account_configs : Directory
  email_clients : ClientCache
  available_providers : List String
  next_client : Nat
  deriving Repr

/-- `EmailAccountManager.create_email_client`: return the cached client when
present, otherwise validate the account config and construct, cache and return
a fresh client instance. -/
def create_email_client (s : ManagerState) (name : String) :
    ManagerState × Except String Nat :=
  match clientsGet s.email_clients name with
  | some c => (s, .ok c)
  | none =>
    match dictGet s.account_configs name with
    | none => (s, .error ("Email account '" ++ name ++ "' not configured"))
    | some cfg =>
      if ¬ cfg.enabled then
        (s, .error ("Email account '" ++ name ++ "' is disabled"))
      else if ¬ s.available_providers.contains (strLower cfg.provider) then
        (s, .error ("Unsupported email provider: " ++ strLower cfg.provider))
      else
        ({ s with
            email_clients := clientsSet s.email_clients name s.next_client
            next_client := s.next_client + 1 },
          .ok s.next_client)

/-- `EmailAccountManager.get_email_client`: cached client or a `ValueError`. -/
def get_email_client (s : ManagerState) (name : String) : Except String Nat :=
  match clientsGet s.email_clients name with
  | some c => .ok c
  | none =>
    .error ("Email client for account '" ++ name ++
      "' not found. Call create_email_client first.")

/-- `EmailAccountManager.remove_email_client`. -/
def remove_email_client (s : ManagerState) (name : String) : ManagerState :=
  { s with email_clients := clientsDel s.email_clients name }

/-- `EmailAccountManager.add_account` (auto-save modelled as succeeding). -/
def add_account (s : ManagerState) (cfg : EmailAccountConfig) : ManagerState × Bool :=
  ({ s with account_configs := create_account_static s.account_configs cfg }, true)

/-- `EmailAccountManager.update_account`: absent account fails without
touching the cache; otherwise the cached client is evicted before the config
is updated. -/
def update_account (s : ManagerState) (name : String) (u : AccountUpdates) :
    ManagerState × Bool :=
  if (dictGet s.account_configs name).isSome then
    let s1 := remove_email_client s name
    ({ s1 with account_configs := update_account_static s1.account_configs name u }, true)
  else (s, false)

/-- `EmailAccountManager.delete_account`: absent account fails without
touching the cache; otherwise the cached client is evicted and the account
removed from the directory. -/
def delete_account (s : ManagerState) (name : String) : ManagerState × Bool :=
  if (dictGet s.account_configs name).isSome then
    let s1 := remove_email_client s name
    ({ s1 with account_configs := delete_account_static s1.account_configs name }, true)
  else (s, false)

/-- One call through the manager's public client/account methods. -/
inductive MgrOp where
  | createClient (name : String)
  | getClient (name : String)
  | addAccount (cfg : EmailAccountConfig)
  | updateAccount (name : String) (u : AccountUpdates)
  | deleteAccount (name : String)
  deriving Repr

def applyMgrOp (s : ManagerState) : MgrOp → ManagerState
  | .createClient n => (create_email_client s n).1
  | .getClient _ => s
  | .addAccount cfg => (add_account s cfg).1
  | .updateAccount n u => (update_account s n u).1
  | .deleteAccount n => (delete_account s n).1

def runMgrOps (s : ManagerState) (ops : List MgrOp) : ManagerState :=
  ops.foldl applyMgrOp s

/-- Ops that are not `update_account name` or `delete_account name`. -/
def avoidsAccount (name : String) : MgrOp → Prop
  | .updateAccount n _ => n ≠ name
  | .deleteAccount n => n ≠ name
  | _ => True

/-- Well-formedness of the manager state: every cached client was constructed
before `next_client`, and cache keys are unique (it models a Python dict). -/
def ManagerInv (s : ManagerState) : Prop :=
  (∀ p ∈ s.email_clients, p.2 < s.next_client) ∧
    (s.email_clients.map Prod.fst).Nodup

/-- After an eviction, every client the cache can ever associate with `name`
again was constructed at or after the eviction-time `next_client` bound. -/
def CacheMinBound (name : String) (b : Nat) (s : ManagerState) : Prop :=
  (∀ d, (name, d) ∈ s.email_clients → b ≤ d) ∧ b ≤ s.next_client

/-! ## Credential store (`google_base_client.py`)

`GoogleBaseClient._authenticate` and its helpers, modelled per account/service:
the persisted token file, the in-memory credentials, and the outcomes of the
two effectful steps (token refresh and the interactive consent flow) supplied
by an environment. -/

/-- An OAuth credential bundle as `_authenticate` observes it. -/
structure Credentials where
  valid : Bool
  expired : Bool
  has_refresh_token : Bool
  scopes : List String
  deriving Repr, DecidableEq

/-- Parsed content of the persisted token file: the recorded granted-scope
list (`token_data.get('scopes', [])`) and the credential bundle
`Credentials.from_authorized_user_file` would produce. -/
structure TokenFileData where
  scopes : List String
  creds : Credentials
  deriving Repr, DecidableEq

/-- Outcomes of the effectful authentication steps: `creds.refresh(Request())`
(`none` = `RefreshError`), `flow.run_local_server` (`none` = flow raised), and
`os.path.exists(self.credentials_path)`. -/
structure AuthEnv where
  refresh_result : Option Credentials
  oauth_result : Option Credentials
  credentials_file_exists : Bool
  deriving Repr, DecidableEq

/-- Where the credentials that `_authenticate` ends up with came from. -/
inductive CredSource where
  | fromTokenFile
  | fromRefresh
  | fromOAuth
  deriving Repr, DecidableEq

/-- Python `set(existing_scopes) != set(self.scopes)` (negated). -/
def sameScopeSet (a b : List String) : Bool :=
  a.all (fun x => b.contains x) && b.all (fun x => a.contains x)

/-- Step 1 of `_authenticate`: `_load_existing_credentials` guarded by the
`except` that calls `_cleanup_invalid_token`.  Returns the in-memory
credentials and the token file left on disk: a scope mismatch raises inside
the `try`, so the stale file is deleted and no credentials are loaded. -/
def loadExistingCredentials (required : List String) (tf : Option TokenFileData) :
    Option Credentials × Option TokenFileData :=
  match tf with
  | none => (none, none)
  | some t =>
    if sameScopeSet t.scopes required then (some t.creds, some t)
    else (none, none)

/-- Step 3 of `_authenticate`: `_start_oauth_flow`. -/
def oauthFlow (env : AuthEnv) : Except String (Credentials × CredSource) :=
  if !env.credentials_file_exists then
    Except.error "Google API credentials file not found"
  else
    match env.oauth_result with
    | some n => Except.ok (n, CredSource.fromOAuth)
    | none => Except.error "OAuth flow failed"

/-- Steps 2-3 of `_authenticate` on the credentials produced by step 1:
valid credentials are used as-is; an expired credential carrying a refresh
token is refreshed (`_attempt_token_refresh`, which clears the credentials on
`RefreshError`); whenever no valid credentials remain, the interactive
consent flow runs. -/
def authAfterLoad (env : AuthEnv) (c? : Option Credentials) :
    Except String (Credentials × CredSource) :=
  match c? with
  | some c =>
    if c.valid then Except.ok (c, CredSource.fromTokenFile)
    else if c.expired && c.has_refresh_token then
      match env.refresh_result with
      | some r =>
        if r.valid then Except.ok (r, CredSource.fromRefresh)
        else oauthFlow env
      | none => oauthFlow env
    else oauthFlow env
  | none => oauthFlow env

/-- `GoogleBaseClient._authenticate`: load (with scope check and stale-token
cleanup), refresh, consent flow, then persist (`_save_credentials`).  Returns
the token file left on disk together with the outcome. -/
def authenticate (env : AuthEnv) (required : List String) (tf : Option TokenFileData) :
    Option TokenFileData × Except String (Credentials × CredSource) :=
  let load := loadExistingCredentials required tf
  match authAfterLoad env load.1 with
  | Except.ok (c, src) => (some (TokenFileData.mk c.scopes c), Except.ok (c, src))
  | Except.error e => (load.2, Except.error e)

/-! ## Unread listing and counting (`gmail_client.py`, `gmail_client_adapter.py`) -/

/-- Python `x or default` on an optional integer (`None` and `0` are falsy). -/
def pyOrInt (v : Option Int) (d : Int) : Int :=
  match v with
  | none => d
  | some x => if x = 0 then d else x

/-- Python `s or default` on an optional string (`None` and `""` are falsy). -/
def pyOrStr (v : Option String) (d : String) : String :=
  match v with
  | none => d
  | some s => if s = "" then d else s

/-- The `cat_map` dictionary of `list_unread` / `count_unread`. -/
def cat_map : List (String × String) :=
  [("PRIMARY", "category:primary"), ("PROMOTIONS", "category:promotions"),
    ("SOCIAL", "category:social"), ("UPDATES", "category:updates")]

/-- The search query built by `list_unread` and `count_unread`:
`'is:unread after:<unix>'` with `after = int((now - timedelta(hours)).timestamp())`,
plus the mapped category clause when `(category or "PRIMARY").upper()` is one
of the four known tabs.  `now` is the current Unix time in whole seconds. -/
def unreadQuery (now : Int) (hours : Int) (category : Option String) : String :=
  let query := "is:unread after:" ++ toString (now - hours * 3600)
  match alistGet cat_map (strUpper (pyOrStr category "PRIMARY")) with
  | some cat_key => query ++ " " ++ cat_key
  | none => query

structure GmailListRequest where
  q : String
  maxResults : Nat
  deriving Repr, DecidableEq

/-- A `users().messages().list` response: the `resultSizeEstimate` field when
present, and the listed message ids.  The server function returns `none` to
model an `HttpError`. -/
structure GmailListResponse where
  resultSizeEstimate : Option Nat
  messages : List String
  deriving Repr, DecidableEq

abbrev GmailServer := GmailListRequest → Option GmailListResponse

/-- The request `count_unread` issues: the unread query with `maxResults=1`. -/
def count_unread_request (now : Int) (hours : Int) (category : Option String) :
    GmailListRequest :=
  GmailListRequest.mk (unreadQuery now hours category) 1

/-- `GmailClient.count_unread`: return the server-reported
`resultSizeEstimate`, or 0 when the field is absent or the request raises. -/
def count_unread (server : GmailServer) (now : Int) (hours : Int)
    (category : Option String) : Nat :=
  match server (count_unread_request now hours category) with
  | none => 0
  | some resp =>
    match resp.resultSizeEstimate with
    | some n => n
    | none => 0

/-- `GmailClient.list_unread`: ids matching the unread query, `[]` on error. -/
def list_unread (server : GmailServer) (now : Int) (hours : Int)
    (max_results : Nat) (category : Option String) : List String :=
  match server (GmailListRequest.mk (unreadQuery now hours category) max_results) with
  | none => []
  | some resp => resp.messages

/-- A formatted message as `get_formatted_message` returns it (the fields the
adapter copies). -/
structure FormattedMsg where
  id : String
  threadId : String
  subject : String
  sender : String
  recipient : String
  date : String
  snippet : String
  deriving Repr, DecidableEq

/-- `get_raw_message` + `get_formatted_message` for one id; `none` models the
per-message exception that `fetch_unread` logs and skips. -/
abbrev MessageStore := String → Option FormattedMsg

/-- `GmailClient.fetch_unread`: fetch and format each listed id, skipping
failures. -/
def fetch_unread (server : GmailServer) (store : MessageStore) (now : Int)
    (hours : Int) (max_results : Nat) (category : Option String) :
    List FormattedMsg :=
  (list_unread server now hours max_results category).filterMap store

/-- The canonical message shape `GmailClientAdapter.get_unread_messages`
produces. -/
structure StandardMsg where
  id : String
  thread_id : String
  subject : String
  sender : String
  recipient : String
  date : String
  snippet : String
  is_read : Bool
  provider : String
  deriving Repr, DecidableEq

/-- `GmailClientAdapter.count_unread_messages`: delegates to `count_unread`
with `hours_back or 24` and `folder or "PRIMARY"`. -/
def count_unread_messages (server : GmailServer) (now : Int)
    (folder : Option String) (hours_back : Option Int) : Nat :=
  count_unread server now (pyOrInt hours_back 24) (some (pyOrStr folder "PRIMARY"))

/-- `GmailClientAdapter.get_unread_messages`: delegates to `fetch_unread`
with the same defaults and standardizes each message, setting
`is_read = False` and `provider = 'gmail'`. -/
def get_unread_messages (server : GmailServer) (store : MessageStore) (now : Int)
    (max_results : Nat) (folder : Option String) (hours_back : Option Int) :
    List StandardMsg :=
  (fetch_unread server store now (pyOrInt hours_back 24) max_results
      (some (pyOrStr folder "PRIMARY"))).map
    (fun m => StandardMsg.mk m.id m.threadId m.subject m.sender m.recipient m.date
      m.snippet false "gmail")

/-! ## Recipients, Python truthiness, and the service-level e-mail validation -/

/-- A `Union[str, List[str]]` recipient argument. -/
inductive PyStrOrList where
  | str (s : String)
  | list (l : List String)
  deriving Repr, DecidableEq

/-- `to if isinstance(to, str) else ', '.join(to)`. -/
def joinAddrs : PyStrOrList → String
  | .str s => s
  | .list l => String.intercalate ", " l

/-- Python truthiness of an optional string (`None` and `""` are falsy). -/
def pyTruthyStr (v : Option String) : Bool :=
  match v with
  | none => false
  | some s => s ≠ ""

/-- Python truthiness of an optional list (`None` and `[]` are falsy). -/
def pyTruthyList {α : Type} (v : Option (List α)) : Bool :=
  match v with
  | none => false
  | some [] => false
  | some (_ :: _) => true

/-- Python truthiness of an optional str-or-list argument. -/
def pyTruthySL (v : Option PyStrOrList) : Bool :=
  match v with
  | none => false
  | some (.str s) => s ≠ ""
  | some (.list []) => false
  | some (.list (_ :: _)) => true

/-- Python `str.strip()` whitespace set. -/
def pySpace (c : Char) : Bool :=
  c = ' ' || c = '\t' || c = '\n' || c = '\x0d' || c = '\x0b' || c = '\x0c'

/-- Python `str.strip()`. -/
def pyStrip (s : String) : String :=
  String.mk (((s.data.dropWhile pySpace).reverse.dropWhile pySpace).reverse)

def isAsciiAlpha (c : Char) : Bool :=
  (65 ≤ c.toNat && c.toNat ≤ 90) || (97 ≤ c.toNat && c.toNat ≤ 122)

def isAsciiDigit (c : Char) : Bool :=
  48 ≤ c.toNat && c.toNat ≤ 57

/-- Characters of the local part `[a-zA-Z0-9._%+-]`. -/
def emailLocalChar (c : Char) : Bool :=
  isAsciiAlpha c || isAsciiDigit c || c = '.' || c = '_' || c = '%' || c = '+' || c = '-'

/-- Characters of the domain part `[a-zA-Z0-9.-]`. -/
def emailDomainChar (c : Char) : Bool :=
  isAsciiAlpha c || isAsciiDigit c || c = '.' || c = '-'

/-- `re.match(r'^[a-zA-Z0-9._%+-]+@[a-zA-Z0-9.-]+\.[a-zA-Z]\x7b2,\x7d$', s)`:
a non-empty local part up to the first `@`, then a domain whose segment after
the last dot is at least two letters (the only decomposition the anchored
pattern can take). -/
def matchEmail (s : String) : Bool :=
  let cs := s.data
  let localPart := cs.takeWhile (fun c => c ≠ '@')
  let rest := cs.drop (localPart.length + 1)
  localPart ≠ [] && localPart.all emailLocalChar &&
    cs.length > localPart.length &&
    rest.all emailDomainChar && rest.contains '.' &&
    (let tld := (rest.reverse.takeWhile (fun c => c ≠ '.')).reverse
     tld.length ≥ 2 && tld.all isAsciiAlpha && rest.length > tld.length + 1)

/-- `EmailService._validate_email_addresses` on the `to`, `cc`, `bcc`
arguments: collect strings and lists, validate each stripped address. -/
def validate_email_addresses (to_addr : Option PyStrOrList) (cc : Option PyStrOrList)
    (bcc : Option PyStrOrList) : Bool :=
  let collect : Option PyStrOrList → List String := fun v =>
    match v with
    | none => []
    | some (.str s) => if s ≠ "" then [s] else []
    | some (.list l) => if l ≠ [] then l else []
  let all_addresses := collect to_addr ++ collect cc ++ collect bcc
  all_addresses.all (fun addr => matchEmail (pyStrip addr))

/-! ## Adapter feature tables and `EmailService.send_email` gating -/

/-- A provider-agnostic send result (`success`, `error`, `provider`). -/
structure SendResult where
  success : Bool
  error : Option String
  provider : String
  deriving Repr, DecidableEq

/-- The argument bundle `EmailService.send_email` forwards to the provider
client's `send_email`. -/
structure OutgoingEmail where
  to_addr : PyStrOrList
  subject : String
  body : String
  cc : Option PyStrOrList
  bcc : Option PyStrOrList
  html_body : Option String
  attachments : Option (List String)
  deriving Repr, DecidableEq

/-- An email client as the service sees it: capability table plus the send
operation of the Capability Interface. -/
structure EmailClientModel where
  provider_name : String
  supports : String → Bool
  send : OutgoingEmail → SendResult

/-- `gmail_features` of `GmailClientAdapter.supports_feature`. -/
def gmail_features : List (String × Bool) :=
  [("html_email", true), ("attachments", true), ("threading", true),
    ("labels", true), ("folders", true), ("search", true), ("drafts", true),
    ("advanced_search", true), ("batch_operations", true),
    ("push_notifications", true), ("history_api", true)]

/-- `GmailClientAdapter.supports_feature`. -/
def gmail_supports_feature (feature : String) : Bool :=
  (alistGet gmail_features feature).getD false

/-- `OutlookClientAdapter._is_implemented` (placeholder: always `False`). -/
def outlook_is_implemented : Bool := false

/-- `outlook_features` of `OutlookClientAdapter.supports_feature`. -/
def outlook_features : List (String × Bool) :=
  [("html_email", true), ("attachments", true), ("threading", true),
    ("labels", false), ("folders", true), ("search", true), ("drafts", true),
    ("advanced_search", true), ("calendar_integration", true),
    ("onedrive_integration", true)]

/-- `OutlookClientAdapter.supports_feature`: `False` for every feature while
the placeholder is unimplemented. -/
def outlook_supports_feature (feature : String) : Bool :=
  if !outlook_is_implemented then false
  else (alistGet outlook_features feature).getD false

/-- `OutlookClientAdapter.send_email` (placeholder): always a failure
envelope, regardless of the arguments. -/
def outlook_send_email (_args : OutgoingEmail) : SendResult :=
  SendResult.mk false (some "Outlook client not fully implemented") "outlook"

/-- The HTML gating step of `EmailService.send_email`: drop `html_body` and
log a warning when the provider lacks `html_email`. -/
def gatedHtml (client : EmailClientModel) (html_body : Option String) :
    Option String × List String :=
  if pyTruthyStr html_body && !(client.supports "html_email") then
    (none, [client.provider_name ++ " doesn't support HTML emails, sending plain text only"])
  else (html_body, [])

/-- The attachment gating step of `EmailService.send_email`. -/
def gatedAttachments (client : EmailClientModel) (attachments : Option (List String)) :
    Option (List String) × List String :=
  if pyTruthyList attachments && !(client.supports "attachments") then
    (none, [client.provider_name ++ " doesn't support attachments, ignoring"])
  else (attachments, [])

/-- The service-level metadata update: on success the result's `provider` is
overwritten with the service's provider name. -/
def service_finish (provider_name : String) (result : SendResult) : SendResult :=
  if result.success then { result with provider := provider_name } else result

/-- `EmailService.send_email`: validate recipients when requested, gate
unsupported HTML bodies and attachments (dropping the field and logging a
warning), then delegate to the provider client.  Returns the result together
with the warnings logged. -/
def email_service_send (client : EmailClientModel) (args : OutgoingEmail)
    (validate_recipients : Bool) : SendResult × List String :=
  if validate_recipients &&
      !(validate_email_addresses (some args.to_addr) args.cc args.bcc) then
    (SendResult.mk false (some "Invalid email addresses") client.provider_name, [])
  else
    (service_finish client.provider_name
        (client.send { args with
          html_body := (gatedHtml client args.html_body).1
          attachments := (gatedAttachments client args.attachments).1 }),
      (gatedHtml client args.html_body).2 ++ (gatedAttachments client args.attachments).2)

/-! ## Outgoing MIME composition (`GmailClient._create_message`) -/

/-- Filesystem and `mimetypes` environment for attachment handling:
`os.path.isfile` and `mimetypes.guess_type` (already split at the first `/`;
`none` models a `None` guess, which defaults to application/octet-stream). -/
structure MimeEnv where
  file_exists : String → Bool
  guess_type : String → Option (String × String)

/-- `os.path.basename`. -/
def basename (path : String) : String :=
  String.mk ((path.data.reverse.takeWhile (fun c => c ≠ '/')).reverse)

/-- One part attached to the outgoing multipart container. -/
inductive MimePart where
  | textPart (subtype : String) (content : String)
  | filePart (main sub : String) (filename : String)
  deriving Repr, DecidableEq

/-- The headers `_create_message` sets on the outgoing message. -/
structure MsgHeaders where
  to_addr : String
  subject : String
  cc : Option String
  bcc : Option String
  deriving Repr, DecidableEq

/-- The MIME structure `_create_message` builds before encoding. -/
inductive MimeMessage where
  | single (headers : MsgHeaders) (body : String)
  | multipart (subtype : String) (headers : MsgHeaders) (parts : List MimePart)
  deriving Repr, DecidableEq

def MimeMessage.headersOf : MimeMessage → MsgHeaders
  | .single h _ => h
  | .multipart _ h _ => h

/-- The `To`/`Subject`/`Cc`/`Bcc` header assignments of `_create_message`
(`Cc`/`Bcc` only when the argument is truthy; lists joined with `', '`). -/
def composeHeaders (to_addr : PyStrOrList) (subject : String)
    (cc bcc : Option PyStrOrList) : MsgHeaders :=
  MsgHeaders.mk (joinAddrs to_addr) subject
    (match cc with
      | some v => if pyTruthySL (some v) then some (joinAddrs v) else none
      | none => none)
    (match bcc with
      | some v => if pyTruthySL (some v) then some (joinAddrs v) else none
      | none => none)

/-- The attachment loop of `_create_message`: skip non-files, guess the MIME
type (defaulting to application/octet-stream), attach base64-encoded content
with the basename as filename. -/
def attachmentParts (env : MimeEnv) (paths : List String) : List MimePart :=
  paths.filterMap (fun path =>
    if env.file_exists path then
      match env.guess_type path with
      | some (m, s) => some (MimePart.filePart m s (basename path))
      | none => some (MimePart.filePart "application" "octet-stream" (basename path))
    else none)

/-- `GmailClient._create_message`: a single-part text message when neither
attachments nor an HTML body is requested; otherwise one multipart container
whose subtype is `alternative` exactly when an HTML body is requested (else
`mixed`), holding the text part, the HTML part when requested, and the
attachment parts. -/
def create_message (env : MimeEnv) (to_addr : PyStrOrList) (subject : String)
    (body : String) (cc bcc : Option PyStrOrList)
    (attachments : Option (List String)) (html_body : Option String) :
    MimeMessage :=
  let headers := composeHeaders to_addr subject cc bcc
  if pyTruthyList attachments || pyTruthyStr html_body then
    MimeMessage.multipart (if pyTruthyStr html_body then "alternative" else "mixed")
      headers
      ([MimePart.textPart "plain" body] ++
        (if pyTruthyStr html_body then [MimePart.textPart "html" (html_body.getD "")]
          else []) ++
        attachmentParts env (attachments.getD []))
  else
    MimeMessage.single headers body

/-! ## URL-safe base64 (`base64.urlsafe_b64decode` / `urlsafe_b64encode`)

Bytes are natural numbers below 256; sextets below 64. -/

/-- The url-safe base64 alphabet (`A-Z a-z 0-9 - _`). -/
def b64Char (n : Nat) : Char :=
  if n < 26 then Char.ofNat (65 + n)
  else if n < 52 then Char.ofNat (97 + (n - 26))
  else if n < 62 then Char.ofNat (48 + (n - 52))
  else if n = 62 then '-'
  else '_'

/-- Value of one alphabet character, `none` for a foreign character. -/
def b64CharVal (c : Char) : Option Nat :=
  if 65 ≤ c.toNat ∧ c.toNat ≤ 90 then some (c.toNat - 65)
  else if 97 ≤ c.toNat ∧ c.toNat ≤ 122 then some (26 + (c.toNat - 97))
  else if 48 ≤ c.toNat ∧ c.toNat ≤ 57 then some (52 + (c.toNat - 48))
  else if c = '-' then some 62
  else if c = '_' then some 63
  else none

/-- The sextet stream of a byte list (three bytes to four sextets; one or two
trailing bytes to two or three sextets). -/
def b64uSextets : List Nat → List Nat
  | a :: b :: c :: rest =>
    a / 4 :: ((a % 4) * 16 + b / 16) :: ((b % 16) * 4 + c / 64) :: (c % 64) ::
      b64uSextets rest
  | [a, b] => [a / 4, (a % 4) * 16 + b / 16, (b % 16) * 4]
  | [a] => [a / 4, (a % 4) * 16]
  | [] => []

/-- The non-padding characters of the url-safe base64 encoding. -/
def b64uEncodeBody (bs : List Nat) : List Char :=
  (b64uSextets bs).map b64Char

/-- Number of `=` padding characters `urlsafe_b64encode` appends. -/
def b64uPadLen : List Nat → Nat
  | [] => 0
  | [_] => 2
  | [_, _] => 1
  | _ :: _ :: _ :: rest => b64uPadLen rest

/-- `base64.urlsafe_b64encode` (with its padding). -/
def b64uEncodeBytes (bs : List Nat) : List Char :=
  b64uEncodeBody bs ++ List.replicate (b64uPadLen bs) '='

/-- Map the non-padding characters back to sextets, failing on a foreign
character. -/
def b64Vals : List Char → Option (List Nat)
  | [] => some []
  | c :: rest =>
    match b64CharVal c, b64Vals rest with
    | some v, some vs => some (v :: vs)
    | _, _ => none

/-- Reassemble bytes from sextets (four sextets to three bytes; a final pair
or triple to one or two bytes; a lone trailing sextet is invalid). -/
def b64Combine : List Nat → Option (List Nat)
  | s1 :: s2 :: s3 :: s4 :: rest =>
    (b64Combine rest).map
      (fun t => (s1 * 4 + s2 / 16) :: ((s2 % 16) * 16 + s3 / 4) ::
        ((s3 % 4) * 64 + s4) :: t)
  | [s1, s2] => some [s1 * 4 + s2 / 16]
  | [s1, s2, s3] => some [s1 * 4 + s2 / 16, (s2 % 16) * 16 + s3 / 4]
  | [_] => none
  | [] => some []

/-- `base64.urlsafe_b64decode`: characters up to the first `=` are decoded;
everything after must be padding and pad the length to a multiple of four. -/
def b64uDecode (cs : List Char) : Option (List Nat) :=
  if (cs.drop ((cs.takeWhile (fun c => c ≠ '=')).length)).all (fun c => c = '=') ∧
      cs.length % 4 = 0 ∧ (cs.takeWhile (fun c => c ≠ '=')).length % 4 ≠ 1 then
    match b64Vals (cs.takeWhile (fun c => c ≠ '=')) with
    | some sextets => b64Combine sextets
    | none => none
  else none

/-- The base64 padding fix of `_decode_msg`:
`if len(data) % 4: data += '=' * (4 - len(data) % 4)`. -/
def fixPadding (cs : List Char) : List Char :=
  if cs.length % 4 ≠ 0 then cs ++ List.replicate (4 - cs.length % 4) '=' else cs

/-! ## UTF-8 (`bytes.decode('utf-8')` / `str.encode('utf-8')`) -/

/-- A Unicode scalar value (what a decoded Python `str` position holds). -/
def ValidScalar (c : Nat) : Prop :=
  c < 55296 ∨ (57343 < c ∧ c < 1114112)

/-- UTF-8 encoding of one scalar value. -/
def utf8EncodeChar (c : Nat) : List Nat :=
  if c < 128 then [c]
  else if c < 2048 then [192 + c / 64, 128 + c % 64]
  else if c < 65536 then [224 + c / 4096, 128 + (c / 64) % 64, 128 + c % 64]
  else [240 + c / 262144, 128 + (c / 4096) % 64, 128 + (c / 64) % 64, 128 + c % 64]

/-- `str.encode('utf-8')`. -/
def utf8Encode (cps : List Nat) : List Nat :=
  (cps.map utf8EncodeChar).flatten

/-- A UTF-8 continuation byte. -/
def isCont (b : Nat) : Prop := 128 ≤ b ∧ b < 192

instance (b : Nat) : Decidable (isCont b) := by
  unfold isCont
  infer_instance

/-- Decode one UTF-8 sequence from the front: strict UTF-8, rejecting
truncated sequences, bad continuation bytes, overlong encodings, surrogates
and values above U+10FFFF. -/
def utf8DecodeOne : List Nat → Option (Nat × List Nat)
  | [] => none
  | b :: rest =>
    if b < 128 then some (b, rest)
    else if 194 ≤ b ∧ b < 224 then
      match rest with
      | b2 :: rest2 =>
        if isCont b2 then some ((b - 192) * 64 + (b2 - 128), rest2) else none
      | [] => none
    else if 224 ≤ b ∧ b < 240 then
      match rest with
      | b2 :: b3 :: rest2 =>
        if isCont b2 ∧ isCont b3 ∧ (b ≠ 224 ∨ 160 ≤ b2) ∧ (b ≠ 237 ∨ b2 < 160) then
          some ((b - 224) * 4096 + (b2 - 128) * 64 + (b3 - 128), rest2)
        else none
      | _ => none
    else if 240 ≤ b ∧ b < 245 then
      match rest with
      | b2 :: b3 :: b4 :: rest2 =>
        if isCont b2 ∧ isCont b3 ∧ isCont b4 ∧
            (b ≠ 240 ∨ 144 ≤ b2) ∧ (b ≠ 244 ∨ b2 < 144) then
          some ((b - 240) * 262144 + (b2 - 128) * 4096 + (b3 - 128) * 64 +
            (b4 - 128), rest2)
        else none
      | _ => none
    else none

/-- The decoding loop, driven by a fuel bounded below by the byte count (each
step consumes at least one byte). -/
def utf8DecodeLoop : Nat → List Nat → Option (List Nat)
  | _, [] => some []
  | 0, _ :: _ => none
  | fuel + 1, b :: rest =>
    match utf8DecodeOne (b :: rest) with
    | some (c, rest2) => (utf8DecodeLoop fuel rest2).map (c :: ·)
    | none => none

/-- `bytes.decode('utf-8')` (`none` models `UnicodeDecodeError`). -/
def utf8Decode (bs : List Nat) : Option (List Nat) :=
  utf8DecodeLoop bs.length bs

/-- One lenient step for `errors='replace'`: on failure emit U+FFFD and skip
one byte. -/
def utf8ReplaceOne (bs : List Nat) : Nat × List Nat :=
  match utf8DecodeOne bs with
  | some (c, rest) => (c, rest)
  | none => (65533, bs.drop 1)

/-- `bytes.decode('utf-8', errors='replace')` (the dead fallback branch of
`_decode_msg`): unreachable there because the iso-8859-1 attempt before it
never fails, so replacement positions need not match CPython's
maximal-subpart policy; each failed step yields one U+FFFD. -/
def utf8ReplaceDecode : Nat → List Nat → List Nat
  | _, [] => []
  | 0, _ :: _ => []
  | fuel + 1, b :: rest =>
    (utf8ReplaceOne (b :: rest)).1 ::
      utf8ReplaceDecode fuel (utf8ReplaceOne (b :: rest)).2

/-! ## Quoted-printable (`quopri.decodestring`) -/

/-- A hexadecimal digit byte (`0-9`, `A-F`, `a-f`). -/
def isHexByte (b : Nat) : Prop :=
  (48 ≤ b ∧ b ≤ 57) ∨ (65 ≤ b ∧ b ≤ 70) ∨ (97 ≤ b ∧ b ≤ 102)

instance (b : Nat) : Decidable (isHexByte b) := by
  unfold isHexByte
  infer_instance

def hexByteVal (b : Nat) : Nat :=
  if 48 ≤ b ∧ b ≤ 57 then b - 48
  else if 65 ≤ b ∧ b ≤ 70 then b - 55
  else b - 87

/-- One step of `quopri.decodestring` on bytes: `=XY` hex escapes decode to
one byte, `=\r\n` and `=\n` soft line breaks disappear, any other `=` passes
through; returns the emitted bytes and the remaining input. -/
def qpStep : List Nat → List Nat × List Nat
  | [] => ([], [])
  | b :: rest =>
    if b = 61 then
      match rest with
      | a :: b2 :: rest2 =>
        if a = 13 ∧ b2 = 10 then ([], rest2)
        else if a = 10 then ([], b2 :: rest2)
        else if isHexByte a ∧ isHexByte b2 then
          ([hexByteVal a * 16 + hexByteVal b2], rest2)
        else ([61], a :: b2 :: rest2)
      | [a] => if a = 10 then ([], []) else ([61, a], [])
      | [] => ([61], [])
    else ([b], rest)

/-- The decoding loop (fuel bounded below by the byte count). -/
def qpDecodeLoop : Nat → List Nat → List Nat
  | _, [] => []
  | 0, _ :: _ => []
  | fuel + 1, b :: rest =>
    (qpStep (b :: rest)).1 ++ qpDecodeLoop fuel (qpStep (b :: rest)).2

/-- `quopri.decodestring` on bytes. -/
def qpDecodeBytes (bs : List Nat) : List Nat :=
  qpDecodeLoop bs.length bs

/-- Upper-case hexadecimal digit byte of a value below 16. -/
def hexDigitUpper (n : Nat) : Nat :=
  if n < 10 then 48 + n else 55 + n

/-- A canonical quoted-printable encoder (no line wrapping): printable ASCII
other than `=` stays literal, everything else becomes an `=XY` escape. -/
def qpEncodeByte (b : Nat) : List Nat :=
  if 33 ≤ b ∧ b ≤ 126 ∧ b ≠ 61 then [b]
  else [61, hexDigitUpper (b / 16), hexDigitUpper (b % 16)]

def qpEncode (bs : List Nat) : List Nat :=
  (bs.map qpEncodeByte).flatten

/-! ## Charset attempts and `GmailClient._decode_msg` -/

/-- `bytes.decode('utf-8-sig')`: strip a UTF-8 BOM when present. -/
def utf8SigDecode (bs : List Nat) : Option (List Nat) :=
  if bs.take 3 = [239, 187, 191] then utf8Decode (bs.drop 3) else utf8Decode bs

/-- `bytes.decode('iso-8859-1')`: total, each byte is its own code point. -/
def latin1Decode (bs : List Nat) : List Nat := bs

/-- The cp1252 mapping of one byte: bytes 0x80-0x9F map through the Windows
table (five of them are undefined and raise), all others are as in latin-1. -/
def win1252Char (b : Nat) : Option Nat :=
  if b < 128 ∨ 160 ≤ b then some b
  else
    alistGet
      [("128", 8364), ("130", 8218), ("131", 402), ("132", 8222), ("133", 8230),
        ("134", 8224), ("135", 8225), ("136", 710), ("137", 8240), ("138", 352),
        ("139", 8249), ("140", 338), ("142", 381), ("145", 8216), ("146", 8217),
        ("147", 8220), ("148", 8221), ("149", 8226), ("150", 8211), ("151", 8212),
        ("152", 732), ("153", 8482), ("154", 353), ("155", 8250), ("156", 339),
        ("158", 382), ("159", 376)] (toString b)

/-- `bytes.decode('windows-1252')`. -/
def win1252Decode : List Nat → Option (List Nat)
  | [] => some []
  | b :: rest =>
    match win1252Char b, win1252Decode rest with
    | some c, some cs => some (c :: cs)
    | _, _ => none

/-- `bytes.decode('ascii')`. -/
def asciiDecode (bs : List Nat) : Option (List Nat) :=
  if bs.all (fun b => b < 128) then some bs else none

/-- The charset priority list `encodings_to_try` of `_decode_msg`. -/
def encodings_to_try : List String :=
  ["utf-8", "utf-8-sig", "iso-8859-1", "windows-1252", "ascii"]

/-- One `decoded_bytes.decode(charset)` attempt. -/
def decodeWith : String → List Nat → Option (List Nat)
  | "utf-8", bs => utf8Decode bs
  | "utf-8-sig", bs => utf8SigDecode bs
  | "iso-8859-1", bs => some (latin1Decode bs)
  | "windows-1252", bs => win1252Decode bs
  | "ascii", bs => asciiDecode bs
  | _, _ => none

/-- The `for charset in encodings_to_try` loop: first successful decode. -/
def firstSuccess (names : List String) (bs : List Nat) : Option (List Nat) :=
  match names with
  | [] => none
  | n :: rest =>
    match decodeWith n bs with
    | some r => some r
    | none => firstSuccess rest bs

/-- Render decoded scalar values back into a Lean string. -/
def renderCps (cps : List Nat) : String :=
  String.mk (cps.map Char.ofNat)

/-- `GmailClient._decode_msg`: empty data gives `""`; otherwise fix the
base64 padding, base64url-decode (any failure is caught by the outer
`except`, producing the failure placeholder), apply the quoted-printable pass
when hinted, then try the charsets in priority order; the post-loop
`utf-8/errors='replace'` fallback is kept for structure although the
iso-8859-1 attempt makes it unreachable. -/
def decodeMsg (data : String) (encoding : Option String) : String :=
  if data = "" then ""
  else
    match b64uDecode (fixPadding data.data) with
    | none => "[Failed to decode message body]"
    | some decoded0 =>
      let decoded :=
        if encoding = some "quoted-printable" then qpDecodeBytes decoded0 else decoded0
      match firstSuccess encodings_to_try decoded with
      | some cps => renderCps cps
      | none => renderCps (utf8ReplaceDecode decoded.length decoded)

/-! ## Reply construction (`GmailClient.reply_to_message`) -/

/-- Lookup in the header dictionary
`\x7bh['name'].lower(): h['value'] for h in original['payload']['headers']\x7d`:
names are lowercased and a later duplicate overwrites an earlier one, so the
lookup scans the reversed list. -/
def headerGet (hs : List (String × String)) (name : String) : Option String :=
  alistGet ((hs.map (fun p => (strLower p.1, p.2))).reverse) name

/-- Python `str.strip(',')`: remove leading and trailing commas. -/
def stripCommas (s : String) : String :=
  String.mk ((s.data.dropWhile (fun c => c = ',')).reverse.dropWhile
    (fun c => c = ',')).reverse

/-- Whether a character list begins with the pattern. -/
def listStartsWith : List Char → List Char → Bool
  | _, [] => true
  | [], _ :: _ => false
  | a :: rest, b :: pat => a = b && listStartsWith rest pat

/-- Python `str.startswith` on strings. -/
def strStartsWith (s pre : String) : Bool :=
  listStartsWith s.data pre.data

/-- Python `s.replace(pat, repl, 1)` for a non-empty pattern: replace the
leftmost occurrence only, leaving the rest untouched. -/
def replaceFirst (pat repl : List Char) : List Char → List Char
  | [] => []
  | a :: rest =>
    if listStartsWith (a :: rest) pat then repl ++ (a :: rest).drop pat.length
    else a :: replaceFirst pat repl rest

/-- Python `pat in s` on character lists. -/
def containsSeq (pat : List Char) : List Char → Bool
  | [] => listStartsWith [] pat
  | a :: rest => listStartsWith (a :: rest) pat || containsSeq pat rest

/-- `msg.as_bytes().decode('utf-8')` for the single-part text message, under
the default `compat32` email policy: that policy's `linesep` is `'\n'`, so
headers are joined with `'\n'` and the header/body separator is `'\n\n'`.
The first three headers are added by `MIMEText.__init__` (ASCII body); `To`,
`Subject` and the optional `Cc`/`Bcc` are then set by `_create_message`. -/
def renderSingle (h : MsgHeaders) (body : String) : String :=
  "Content-Type: text/plain; charset=\"us-ascii\"\nMIME-Version: 1.0\n" ++
    "Content-Transfer-Encoding: 7bit\nTo: " ++ h.to_addr ++
    "\nSubject: " ++ h.subject ++
    (match h.cc with | some c => "\nCc: " ++ c | none => "") ++
    (match h.bcc with | some b => "\nBcc: " ++ b | none => "") ++
    "\n\n" ++ body

/-- `as_bytes` serialization for the messages the reply scenario produces; a
multipart serialization is not modelled (its boundary is random), so only the
single-part case is rendered. -/
def compatRenderSingle : MimeMessage → String
  | .single h body => renderSingle h body
  | .multipart _ _ _ => ""

/-- `base64.urlsafe_b64encode(s.encode('utf-8')).decode('utf-8')`. -/
def rawEncode (s : String) : String :=
  String.mk (b64uEncodeBytes (utf8Encode (s.data.map Char.toNat)))

/-- `base64.urlsafe_b64decode(raw).decode('utf-8')` (strict, no re-padding). -/
def rawDecode (s : String) : Option String :=
  match b64uDecode s.data with
  | none => none
  | some bs =>
    match utf8Decode bs with
    | none => none
    | some cps => some (renderCps cps)

/-- The original message as `get_raw_message` returns it: its payload headers
(name/value pairs in wire order) and its thread id. -/
structure OriginalMessage where
  headers : List (String × String)
  threadId : String
  deriving Repr, DecidableEq

/-- The dict handed to `users().messages().send`: the encoded raw payload and
the thread id. -/
structure GmailSendBody where
  raw : String
  threadId : String
  deriving Repr, DecidableEq

/-- The reply `cc`: with `reply_all`, the original `to` and `cc` (defaulting
to `''`) joined with a comma and stripped of leading/trailing commas;
otherwise `None`. -/
def replyCc (hs : List (String × String)) (reply_all : Bool) : Option String :=
  if reply_all then
    some (stripCommas (((headerGet hs "to").getD "") ++ "," ++
      ((headerGet hs "cc").getD "")))
  else none

/-- The reply subject: `"Re: "` prefixed unless the original subject already
starts with `"Re:"` (case-sensitive). -/
def replySubject (hs : List (String × String)) : String :=
  if strStartsWith ((headerGet hs "subject").getD "") "Re:" then
    (headerGet hs "subject").getD ""
  else "Re: " ++ (headerGet hs "subject").getD ""

/-- The `References` value: the original chain with the message id appended,
or the message id alone when the chain is absent or empty. -/
def replyReferences (hs : List (String × String)) (mid : String) : String :=
  if pyTruthyStr (headerGet hs "references") then
    ((headerGet hs "references").getD "") ++ " " ++ mid
  else mid

/-- The replacement `reply_to_message` splices in place of the first
`'\r\n\r\n'`. -/
def injectedHeaders (mid refs : String) : String :=
  "\r\nIn-Reply-To: " ++ mid ++ "\r\nReferences: " ++ refs ++ "\r\n\r\n"

/-- The MIME message `reply_to_message` composes via `_create_message`. -/
def replyMime (env : MimeEnv) (orig : OriginalMessage) (sender body : String)
    (html_body : Option String) (reply_all : Bool)
    (attachments : Option (List String)) : MimeMessage :=
  create_message env (PyStrOrList.str sender) (replySubject orig.headers) body
    ((replyCc orig.headers reply_all).map PyStrOrList.str) none
    attachments html_body

/-- `GmailClient.reply_to_message`, with the email library's `as_bytes`
serialization abstracted as `render` (the raw payload `_create_message`
produces is `rawEncode (render msg)`).  Errors model raised exceptions: a
missing `From` header makes `', '.join(None)` raise inside `_create_message`,
and a failing decode of the raw payload raises in the splice step. -/
def reply_to_message (render : MimeMessage → String) (env : MimeEnv)
    (orig : OriginalMessage) (body : String) (html_body : Option String)
    (reply_all : Bool) (attachments : Option (List String)) :
    Except String GmailSendBody :=
  match headerGet orig.headers "from" with
  | none => Except.error "TypeError: can only join an iterable"
  | some sender =>
    if pyTruthyStr (headerGet orig.headers "message-id") then
      match rawDecode (rawEncode
          (render (replyMime env orig sender body html_body reply_all
            attachments))) with
      | none => Except.error "error decoding raw payload"
      | some raw0 =>
        Except.ok (GmailSendBody.mk
          (rawEncode (String.mk (replaceFirst ("\r\n\r\n".data)
            ((injectedHeaders ((headerGet orig.headers "message-id").getD "")
              (replyReferences orig.headers
                ((headerGet orig.headers "message-id").getD ""))).data)
            raw0.data)))
          orig.threadId)
    else
      Except.ok (GmailSendBody.mk
        (rawEncode (render (replyMime env orig sender body html_body reply_all
          attachments)))
        orig.threadId)

/-! ## Association-list lemmas -/

theorem alistGet_set_self {β : Type} (l : List (String × β)) (k : String) (v : β) :
    alistGet (alistSet l k v) k = some v := by
  induction l with
  | nil => simp [alistGet, alistSet]
  | cons p rest ih =>
    obtain ⟨k', v'⟩ := p
    by_cases h : k' = k <;> simp [alistGet, alistSet, h, ih]

theorem alistGet_set_other {β : Type} (l : List (String × β)) (k k' : String) (v : β)
    (h : k' ≠ k) : alistGet (alistSet l k v) k' = alistGet l k' := by
  induction l with
  | nil => simp [alistGet, alistSet, Ne.symm h]
  | cons p rest ih =>
    obtain ⟨k0, v0⟩ := p
    by_cases h0 : k0 = k
    · subst h0
      simp [alistGet, alistSet, Ne.symm h]
    · simp only [alistSet, if_neg h0, alistGet, ih]

theorem alistGet_del_other {β : Type} (l : List (String × β)) (k k' : String)
    (h : k' ≠ k) : alistGet (alistDel l k) k' = alistGet l k' := by
  induction l with
  | nil => simp [alistDel]
  | cons p rest ih =>
    obtain ⟨k0, v0⟩ := p
    by_cases h0 : k0 = k
    · subst h0
      simp [alistGet, alistDel, Ne.symm h]
    · simp only [alistDel, if_neg h0, alistGet, ih]

theorem alistGet_eq_none_of_not_mem_keys {β : Type} (l : List (String × β)) (k : String)
    (h : k ∉ l.map Prod.fst) : alistGet l k = none := by
  induction l with
  | nil => rfl
  | cons p rest ih =>
    obtain ⟨k0, v0⟩ := p
    simp only [List.map_cons, List.mem_cons, not_or] at h
    simp only [alistGet, if_neg (Ne.symm h.1)]
    exact ih h.2

theorem alistGet_del_self {β : Type} (l : List (String × β)) (k : String)
    (hnd : (l.map Prod.fst).Nodup) : alistGet (alistDel l k) k = none := by
  induction l with
  | nil => simp [alistGet, alistDel]
  | cons p rest ih =>
    obtain ⟨k0, v0⟩ := p
    simp only [List.map_cons, List.nodup_cons] at hnd
    by_cases h0 : k0 = k
    · subst h0
      simp only [alistDel, if_pos rfl]
      exact alistGet_eq_none_of_not_mem_keys rest k0 hnd.1
    · simp only [alistDel, if_neg h0, alistGet, if_neg h0]
      exact ih hnd.2

theorem mem_alistSet {β : Type} (l : List (String × β)) (k : String) (v : β) (p : String × β)
    (h : p ∈ alistSet l k v) : p ∈ l ∨ p = (k, v) := by
  induction l with
  | nil =>
    simp only [alistSet, List.mem_singleton] at h
    exact Or.inr h
  | cons q rest ih =>
    obtain ⟨k0, v0⟩ := q
    by_cases h0 : k0 = k
    · subst h0
      simp only [alistSet, if_pos rfl] at h
      rcases List.mem_cons.mp h with h1 | h1
      · exact Or.inr (by simp [h1])
      · exact Or.inl (List.mem_cons_of_mem _ h1)
    · simp only [alistSet, if_neg h0, List.mem_cons] at h
      rcases h with h | h
      · exact Or.inl (by simp [h])
      · rcases ih h with hh | hh
        · exact Or.inl (List.mem_cons_of_mem _ hh)
        · exact Or.inr hh

theorem mem_alistDel {β : Type} (l : List (String × β)) (k : String) (p : String × β)
    (h : p ∈ alistDel l k) : p ∈ l := by
  induction l with
  | nil =>
    simp only [alistDel] at h
    exact h
  | cons q rest ih =>
    obtain ⟨k0, v0⟩ := q
    by_cases h0 : k0 = k
    · subst h0
      simp only [alistDel, if_pos rfl] at h
      exact List.mem_cons_of_mem _ h
    · simp only [alistDel, if_neg h0, List.mem_cons] at h
      rcases h with h | h
      · exact List.mem_cons.mpr (Or.inl h)
      · exact List.mem_cons.mpr (Or.inr (ih h))

theorem keys_alistSet_nodup {β : Type} (l : List (String × β)) (k : String) (v : β)
    (h : (l.map Prod.fst).Nodup) : ((alistSet l k v).map Prod.fst).Nodup := by
  induction l with
  | nil => simp [alistSet]
  | cons q rest ih =>
    obtain ⟨k0, v0⟩ := q
    simp only [List.map_cons, List.nodup_cons] at h
    by_cases h0 : k0 = k
    · subst h0
      have hset : alistSet ((k0, v0) :: rest) k0 v = (k0, v) :: rest := by
        simp [alistSet]
      rw [hset]
      simp only [List.map_cons, List.nodup_cons]
      exact ⟨h.1, h.2⟩
    · have hkeys : ∀ a ∈ (alistSet rest k v).map Prod.fst,
          a ∈ rest.map Prod.fst ∨ a = k := by
        intro a ha
        simp only [List.mem_map] at ha
        obtain ⟨p, hp, hpa⟩ := ha
        rcases mem_alistSet rest k v p hp with hh | hh
        · exact Or.inl (hpa ▸ List.mem_map_of_mem _ hh)
        · subst hh
          exact Or.inr hpa.symm
      simp only [alistSet, if_neg h0, List.map_cons, List.nodup_cons]
      refine ⟨?_, ih h.2⟩
      intro hmem
      rcases hkeys _ hmem with hh | hh
      · exact h.1 hh
      · exact h0 hh

theorem keys_alistDel_nodup {β : Type} (l : List (String × β)) (k : String)
    (h : (l.map Prod.fst).Nodup) : ((alistDel l k).map Prod.fst).Nodup := by
  induction l with
  | nil => simp [alistDel]
  | cons q rest ih =>
    obtain ⟨k0, v0⟩ := q
    simp only [List.map_cons, List.nodup_cons] at h
    by_cases h0 : k0 = k
    · subst h0
      simp only [alistDel, if_pos rfl]
      exact h.2
    · simp only [alistDel, if_neg h0, List.map_cons, List.nodup_cons]
      refine ⟨?_, ih h.2⟩
      intro hmem
      simp only [List.mem_map] at hmem
      obtain ⟨p, hp, hpa⟩ := hmem
      exact h.1 (hpa ▸ List.mem_map_of_mem _ (mem_alistDel rest k p hp))

/-! ## Default-account counting lemmas (claim C1) -/

theorem defaultCount_cons (p : String × EmailAccountConfig) (l : Directory) :
    defaultCount (p :: l) = dInd p + defaultCount l := by
  by_cases h : p.2.default_account <;>
    simp [defaultCount, dInd, List.filter_cons, h] <;> omega

theorem defaultCount_clearDefaults (accounts : Directory) :
    defaultCount (clearDefaults accounts) = 0 := by
  induction accounts with
  | nil => rfl
  | cons p rest ih =>
    rw [show clearDefaults (p :: rest) =
      (p.1, { p.2 with default_account := false }) :: clearDefaults rest from rfl]
    rw [defaultCount_cons]
    simp only [dInd]
    simp [ih]

theorem alistSet_cons_self (rest : Directory) (k : String)
    (v0 v : EmailAccountConfig) :
    alistSet ((k, v0) :: rest) k v = (k, v) :: rest := by
  simp [alistSet]

theorem alistSet_cons_other (rest : Directory) (k0 k : String)
    (v0 v : EmailAccountConfig) (h : ¬ k0 = k) :
    alistSet ((k0, v0) :: rest) k v = (k0, v0) :: alistSet rest k v := by
  simp [alistSet, h]

theorem alistDel_cons_self (rest : Directory) (k : String) (v0 : EmailAccountConfig) :
    alistDel ((k, v0) :: rest) k = rest := by
  simp [alistDel]

theorem alistDel_cons_other (rest : Directory) (k0 k : String)
    (v0 : EmailAccountConfig) (h : ¬ k0 = k) :
    alistDel ((k0, v0) :: rest) k = (k0, v0) :: alistDel rest k := by
  simp [alistDel, h]

theorem defaultCount_alistSet_le (l : Directory) (k : String) (v : EmailAccountConfig) :
    defaultCount (alistSet l k v) ≤ defaultCount l + dInd (k, v) := by
  induction l with
  | nil =>
    rw [show alistSet ([] : Directory) k v = [(k, v)] from rfl]
    rw [show ([(k, v)] : Directory) = (k, v) :: [] from rfl, defaultCount_cons]
    simp [defaultCount]
  | cons p rest ih =>
    obtain ⟨k0, v0⟩ := p
    by_cases h0 : k0 = k
    · subst h0
      rw [alistSet_cons_self, defaultCount_cons, defaultCount_cons]
      simp only [dInd]
      split_ifs <;> omega
    · rw [alistSet_cons_other rest k0 k v0 v h0, defaultCount_cons, defaultCount_cons]
      omega

theorem defaultCount_alistSet_of_get (l : Directory) (k : String)
    (v0 v : EmailAccountConfig) (hget : alistGet l k = some v0) :
    defaultCount (alistSet l k v) + dInd (k, v0) = defaultCount l + dInd (k, v) := by
  induction l with
  | nil => simp [alistGet] at hget
  | cons p rest ih =>
    obtain ⟨k0, w⟩ := p
    by_cases h0 : k0 = k
    · subst h0
      rw [show alistGet ((k0, w) :: rest) k0 = some w from by simp [alistGet]] at hget
      injection hget with hget
      subst hget
      rw [alistSet_cons_self, defaultCount_cons, defaultCount_cons]
      omega
    · rw [show alistGet ((k0, w) :: rest) k = alistGet rest k from by
        simp [alistGet, h0]] at hget
      rw [alistSet_cons_other rest k0 k w v h0, defaultCount_cons, defaultCount_cons]
      have := ih hget
      omega

theorem defaultCount_alistDel_of_get (l : Directory) (k : String)
    (v0 : EmailAccountConfig) (hget : alistGet l k = some v0) :
    defaultCount (alistDel l k) + dInd (k, v0) = defaultCount l := by
  induction l with
  | nil => simp [alistGet] at hget
  | cons p rest ih =>
    obtain ⟨k0, w⟩ := p
    by_cases h0 : k0 = k
    · subst h0
      rw [show alistGet ((k0, w) :: rest) k0 = some w from by simp [alistGet]] at hget
      injection hget with hget
      subst hget
      rw [alistDel_cons_self, defaultCount_cons]
      omega
    · rw [show alistGet ((k0, w) :: rest) k = alistGet rest k from by
        simp [alistGet, h0]] at hget
      rw [alistDel_cons_other rest k0 k w h0, defaultCount_cons, defaultCount_cons]
      have := ih hget
      omega

theorem defaultCount_promoteFirst_le (l : Directory) :
    defaultCount (promoteFirst l) ≤ defaultCount l + 1 := by
  cases l with
  | nil => simp [promoteFirst]
  | cons p rest =>
    obtain ⟨k, v⟩ := p
    simp only [promoteFirst, defaultCount_cons, dInd]
    split_ifs <;> omega

theorem enabledDefaultCount_le_defaultCount (accounts : Directory) :
    enabledDefaultCount accounts ≤ defaultCount accounts := by
  induction accounts with
  | nil => simp [enabledDefaultCount, defaultCount]
  | cons p rest ih =>
    simp only [enabledDefaultCount, defaultCount, List.filter_cons] at *
    by_cases h1 : p.2.default_account <;> by_cases h2 : p.2.enabled <;>
      simp [h1, h2] at * <;> omega

theorem dInd_le_one (p : String × EmailAccountConfig) : dInd p ≤ 1 := by
  unfold dInd
  split_ifs <;> omega

theorem defaultCount_create_account (accounts : Directory) (cfg : EmailAccountConfig)
    (h : defaultCount accounts ≤ 1) :
    defaultCount (create_account_static accounts cfg) ≤ 1 := by
  unfold create_account_static dictSet
  by_cases hd : cfg.default_account
  · rw [if_pos hd]
    have h0 := defaultCount_clearDefaults accounts
    have h1 := defaultCount_alistSet_le (clearDefaults accounts) cfg.name cfg
    have h2 := dInd_le_one (cfg.name, cfg)
    omega
  · rw [if_neg hd]
    have h1 := defaultCount_alistSet_le accounts cfg.name cfg
    have h2 : dInd (cfg.name, cfg) = 0 := by simp [dInd, hd]
    omega

theorem defaultCount_updateAfterClear_le (cleared : Directory) (name : String)
    (u : AccountUpdates) :
    defaultCount (updateAfterClear cleared name u) ≤ defaultCount cleared + 1 := by
  unfold updateAfterClear
  cases hget : dictGet cleared name with
  | none =>
    show defaultCount cleared ≤ defaultCount cleared + 1
    omega
  | some cfg =>
    show defaultCount (dictSet cleared name (applyUpdates cfg u)) ≤ defaultCount cleared + 1
    have h1 := defaultCount_alistSet_le cleared name (applyUpdates cfg u)
    have h2 := dInd_le_one (name, applyUpdates cfg u)
    unfold dictSet
    omega

theorem defaultCount_update_account (accounts : Directory) (name : String)
    (u : AccountUpdates) (h : defaultCount accounts ≤ 1) :
    defaultCount (update_account_static accounts name u) ≤ 1 := by
  unfold update_account_static
  by_cases hp : (dictGet accounts name).isSome
  · rw [if_pos hp]
    by_cases hd : u.default_account.getD false
    · rw [if_pos hd]
      have h0 := defaultCount_clearDefaults accounts
      have h1 := defaultCount_updateAfterClear_le (clearDefaults accounts) name u
      omega
    · rw [if_neg hd]
      unfold updateAfterClear
      cases hget : dictGet accounts name with
      | none => exact h
      | some cfg =>
        show defaultCount (dictSet accounts name (applyUpdates cfg u)) ≤ 1
        have h1 := defaultCount_alistSet_of_get accounts name cfg (applyUpdates cfg u) hget
        have hcases : u.default_account = none ∨ u.default_account = some false := by
          cases hu : u.default_account with
          | none => exact Or.inl rfl
          | some b =>
            cases b with
            | false => exact Or.inr rfl
            | true => rw [hu] at hd; simp at hd
        have h2 : dInd (name, applyUpdates cfg u) ≤ dInd (name, cfg) := by
          rcases hcases with hu | hu <;>
            simp only [dInd, applyUpdates, hu, Option.getD] <;> split_ifs <;> simp_all
        unfold dictSet at *
        omega
  · rw [if_neg hp]
    exact h

theorem defaultCount_delete_account (accounts : Directory) (name : String)
    (h : defaultCount accounts ≤ 1) :
    defaultCount (delete_account_static accounts name) ≤ 1 := by
  unfold delete_account_static
  cases hget : dictGet accounts name with
  | none => exact h
  | some cfg =>
    show defaultCount
      (if cfg.default_account ∧ dictDel accounts name ≠ [] then
        promoteFirst (dictDel accounts name) else dictDel accounts name) ≤ 1
    have h1 := defaultCount_alistDel_of_get accounts name cfg hget
    by_cases hd : cfg.default_account ∧ dictDel accounts name ≠ []
    · rw [if_pos hd]
      have h2 := defaultCount_promoteFirst_le (dictDel accounts name)
      have h3 : dInd (name, cfg) = 1 := by simp [dInd, hd.1]
      unfold dictDel at *
      omega
    · rw [if_neg hd]
      have h3 := dInd_le_one (name, cfg)
      unfold dictDel at *
      omega

theorem defaultCount_applyDirOp (accounts : Directory) (op : DirOp)
    (h : defaultCount accounts ≤ 1) :
    defaultCount (applyDirOp accounts op) ≤ 1 := by
  cases op with
  | add cfg => exact defaultCount_create_account accounts cfg h
  | update name u => exact defaultCount_update_account accounts name u h
  | delete name => exact defaultCount_delete_account accounts name h

theorem defaultCount_runDirOps (accounts : Directory) (ops : List DirOp)
    (h : defaultCount accounts ≤ 1) :
    defaultCount (runDirOps accounts ops) ≤ 1 := by
  induction ops generalizing accounts with
  | nil => exact h
  | cons op rest ih =>
    exact ih (applyDirOp accounts op) (defaultCount_applyDirOp accounts op h)

theorem eq_of_mem_of_length_le_one {α : Type} {l : List α} {a b : α}
    (h : l.length ≤ 1) (ha : a ∈ l) (hb : b ∈ l) : a = b := by
  cases l with
  | nil => cases ha
  | cons x rest =>
    cases rest with
    | nil =>
      simp only [List.mem_singleton] at ha hb
      rw [ha, hb]
    | cons y rest2 => simp at h

theorem get_default_of_enabled_default (accounts : Directory) (n : String)
    (c : EmailAccountConfig) (h : defaultCount accounts ≤ 1) (hmem : (n, c) ∈ accounts)
    (hd : c.default_account) (he : c.enabled) :
    get_default_account_name_static accounts = some n := by
  cases hfind : accounts.find? (fun p => p.2.default_account && p.2.enabled) with
  | none =>
    have := List.find?_eq_none.mp hfind (n, c) hmem
    simp [hd, he] at this
  | some q =>
    have hq := List.find?_some hfind
    have hqmem := List.mem_of_find?_eq_some hfind
    simp only [Bool.and_eq_true] at hq
    have hqf : q ∈ accounts.filter (fun p => p.2.default_account) :=
      List.mem_filter.mpr ⟨hqmem, hq.1⟩
    have hcf : (n, c) ∈ accounts.filter (fun p => p.2.default_account) :=
      List.mem_filter.mpr ⟨hmem, hd⟩
    have heq : q = (n, c) := eq_of_mem_of_length_le_one h hqf hcf
    unfold get_default_account_name_static
    rw [hfind, heq]

/-- C1 (as stated in the spec) is false: the directory
`{X: enabled, default; Y: disabled, default}` has at most one *enabled*
default account, yet `update_account(Y, {enabled: true})` leaves two enabled
accounts with `default_account = true`. -/
theorem C1_counterexample :
    enabledDefaultCount
      [("X", EmailAccountConfig.mk "X" "gmail" "" true true),
        ("Y", EmailAccountConfig.mk "Y" "gmail" "" false true)] ≤ 1 ∧
    enabledDefaultCount
      (runDirOps
        [("X", EmailAccountConfig.mk "X" "gmail" "" true true),
          ("Y", EmailAccountConfig.mk "Y" "gmail" "" false true)]
        [DirOp.update "Y" (AccountUpdates.mk none none (some true) none)]) = 2 := by
  constructor
  · decide
  · decide

/-- C1 (amended): starting from a directory in which at most one account
overall (enabled or not) has `default_account = true`, any sequence of
`add_account` / `update_account` / `delete_account` operations preserves that
bound, and hence at most one enabled account is marked default; deleting the
default account while other accounts remain promotes the first remaining
account (in directory order) to default; and `get_default_account_name`
returns the enabled account marked default if one exists, otherwise the first
enabled account in directory order, otherwise `None`. -/
theorem C1_default_discipline :
    (∀ (accounts : Directory) (ops : List DirOp), defaultCount accounts ≤ 1 →
      defaultCount (runDirOps accounts ops) ≤ 1 ∧
        enabledDefaultCount (runDirOps accounts ops) ≤ 1) ∧
    (∀ (accounts : Directory) (name : String) (cfg : EmailAccountConfig),
      dictGet accounts name = some cfg → cfg.default_account →
      dictDel accounts name ≠ [] →
      delete_account_static accounts name = promoteFirst (dictDel accounts name)) ∧
    (∀ (accounts : Directory) (n : String) (c : EmailAccountConfig),
      defaultCount accounts ≤ 1 → (n, c) ∈ accounts → c.default_account → c.enabled →
      get_default_account_name_static accounts = some n) ∧
    (∀ accounts : Directory,
      (∀ p ∈ accounts, (p.2.default_account && p.2.enabled) = false) →
      get_default_account_name_static accounts =
        (accounts.find? (fun p => p.2.enabled)).map Prod.fst) ∧
    (∀ accounts : Directory, (∀ p ∈ accounts, p.2.enabled = false) →
      get_default_account_name_static accounts = none) := by
  refine ⟨?_, ?_, ?_, ?_, ?_⟩
  · intro accounts ops h
    have h1 := defaultCount_runDirOps accounts ops h
    exact ⟨h1, (enabledDefaultCount_le_defaultCount _).trans h1⟩
  · intro accounts name cfg hget hd hne
    unfold delete_account_static
    rw [hget]
    show (if cfg.default_account = true ∧ dictDel accounts name ≠ [] then
        promoteFirst (dictDel accounts name) else dictDel accounts name) =
      promoteFirst (dictDel accounts name)
    rw [if_pos ⟨hd, hne⟩]
  · exact fun accounts n c h hmem hd he =>
      get_default_of_enabled_default accounts n c h hmem hd he
  · intro accounts hnone
    unfold get_default_account_name_static
    have hfind : accounts.find? (fun p => p.2.default_account && p.2.enabled) = none :=
      List.find?_eq_none.mpr (fun p hp => by simp [hnone p hp])
    rw [hfind]
    cases accounts.find? (fun p => p.2.enabled) <;> rfl
  · intro accounts hnone
    unfold get_default_account_name_static
    have hfind1 : accounts.find? (fun p => p.2.default_account && p.2.enabled) = none :=
      List.find?_eq_none.mpr (fun p hp => by simp [hnone p hp])
    have hfind2 : accounts.find? (fun p => p.2.enabled) = none :=
      List.find?_eq_none.mpr (fun p hp => by simp [hnone p hp])
    rw [hfind1, hfind2]

/-- C1 witness: the amended invariant and the promotion/default-resolution
clauses evaluated on concrete directories, including the spec's
`{A: default=true, B: default=false}` deletion scenario. -/
theorem C1_default_discipline_witness :
    (defaultCount
        (runDirOps
          [("A", EmailAccountConfig.mk "A" "gmail" "" true true),
            ("B", EmailAccountConfig.mk "B" "gmail" "" true false)]
          [DirOp.delete "A"]) ≤ 1 ∧
      enabledDefaultCount
        (runDirOps
          [("A", EmailAccountConfig.mk "A" "gmail" "" true true),
            ("B", EmailAccountConfig.mk "B" "gmail" "" true false)]
          [DirOp.delete "A"]) ≤ 1) ∧
    delete_account_static
        [("A", EmailAccountConfig.mk "A" "gmail" "" true true),
          ("B", EmailAccountConfig.mk "B" "gmail" "" true false)] "A" =
      promoteFirst
        (dictDel
          [("A", EmailAccountConfig.mk "A" "gmail" "" true true),
            ("B", EmailAccountConfig.mk "B" "gmail" "" true false)] "A") ∧
    get_default_account_name_static
        [("A", EmailAccountConfig.mk "A" "gmail" "" true true),
          ("B", EmailAccountConfig.mk "B" "gmail" "" true false)] = some "A" := by
  refine ⟨C1_default_discipline.1 _ _ (by decide), ?_, ?_⟩
  · exact C1_default_discipline.2.1 _ "A" (EmailAccountConfig.mk "A" "gmail" "" true true)
      (by decide) (by decide) (by decide)
  · exact C1_default_discipline.2.2.1 _ "A" (EmailAccountConfig.mk "A" "gmail" "" true true)
      (by decide) (by decide) (by decide) (by decide)

/-! ## Client-cache lemmas (claim C2) -/

theorem create_of_cached (s : ManagerState) (m : String) (c : Nat)
    (h : clientsGet s.email_clients m = some c) :
    create_email_client s m = (s, Except.ok c) := by
  unfold create_email_client
  rw [h]

theorem create_clients_cases (s : ManagerState) (m : String) :
    (create_email_client s m).1 = s ∨
    ((create_email_client s m).1 =
        { s with
          email_clients := clientsSet s.email_clients m s.next_client
          next_client := s.next_client + 1 } ∧
      clientsGet s.email_clients m = none) := by
  unfold create_email_client
  cases hc : clientsGet s.email_clients m with
  | some c => exact Or.inl rfl
  | none =>
    cases hg : dictGet s.account_configs m with
    | none => exact Or.inl rfl
    | some cfg =>
      by_cases he : cfg.enabled
      · by_cases hp : s.available_providers.contains (strLower cfg.provider)
        · right
          refine ⟨?_, rfl⟩
          show (if ¬ cfg.enabled = true then _
            else if ¬ s.available_providers.contains (strLower cfg.provider) = true then _
            else (({ s with
              email_clients := clientsSet s.email_clients m s.next_client
              next_client := s.next_client + 1 } : ManagerState),
              Except.ok s.next_client)).1 = _
          rw [if_neg (fun hcon => hcon he), if_neg (fun hcon => hcon hp)]
        · left
          show (if ¬ cfg.enabled = true then
              ((s, Except.error ("Email account '" ++ m ++ "' is disabled")) :
                ManagerState × Except String Nat)
            else if ¬ s.available_providers.contains (strLower cfg.provider) = true then
              (s, Except.error ("Unsupported email provider: " ++ strLower cfg.provider))
            else _).1 = s
          rw [if_neg (fun hcon => hcon he), if_pos hp]
      · left
        show (if ¬ cfg.enabled = true then
            ((s, Except.error ("Email account '" ++ m ++ "' is disabled")) :
              ManagerState × Except String Nat)
          else _).1 = s
        rw [if_pos he]

theorem applyMgrOp_configs_or_clients (s : ManagerState) (op : MgrOp) (name : String)
    (havoid : avoidsAccount name op) (c : Nat)
    (h : clientsGet s.email_clients name = some c) :
    clientsGet (applyMgrOp s op).email_clients name = some c := by
  cases op with
  | getClient m => exact h
  | addAccount cfg => exact h
  | createClient m =>
    rcases create_clients_cases s m with hcase | ⟨hcase, hnone⟩
    · rw [show applyMgrOp s (MgrOp.createClient m) = (create_email_client s m).1 from rfl,
        hcase]
      exact h
    · rw [show applyMgrOp s (MgrOp.createClient m) = (create_email_client s m).1 from rfl,
        hcase]
      by_cases hm : m = name
      · subst hm
        rw [hnone] at h
        cases h
      · show clientsGet (clientsSet s.email_clients m s.next_client) name = some c
        unfold clientsGet clientsSet at *
        rw [alistGet_set_other _ _ _ _ (fun hh => hm hh.symm)]
        exact h
  | updateAccount m u =>
    show clientsGet (update_account s m u).1.email_clients name = some c
    unfold update_account
    by_cases hp : (dictGet s.account_configs m).isSome
    · rw [if_pos hp]
      show clientsGet (clientsDel s.email_clients m) name = some c
      unfold clientsGet clientsDel at *
      rw [alistGet_del_other _ _ _ (fun hh => havoid hh.symm)]
      exact h
    · rw [if_neg hp]
      exact h
  | deleteAccount m =>
    show clientsGet (delete_account s m).1.email_clients name = some c
    unfold delete_account
    by_cases hp : (dictGet s.account_configs m).isSome
    · rw [if_pos hp]
      show clientsGet (clientsDel s.email_clients m) name = some c
      unfold clientsGet clientsDel at *
      rw [alistGet_del_other _ _ _ (fun hh => havoid hh.symm)]
      exact h
    · rw [if_neg hp]
      exact h

theorem runMgrOps_cached (s : ManagerState) (ops : List MgrOp) (name : String)
    (havoid : ∀ op ∈ ops, avoidsAccount name op) (c : Nat)
    (h : clientsGet s.email_clients name = some c) :
    clientsGet (runMgrOps s ops).email_clients name = some c := by
  induction ops generalizing s with
  | nil => exact h
  | cons op rest ih =>
    exact ih (applyMgrOp s op)
      (fun o ho => havoid o (List.mem_cons_of_mem _ ho))
      (applyMgrOp_configs_or_clients s op name (havoid op (List.mem_cons_self _ _)) c h)

theorem alistGet_isSome_of_mem {β : Type} {l : List (String × β)} {k : String} {v : β}
    (hmem : (k, v) ∈ l) : (alistGet l k).isSome := by
  induction l with
  | nil => cases hmem
  | cons p rest ih =>
    obtain ⟨k0, v0⟩ := p
    by_cases h0 : k0 = k
    · subst h0
      simp [alistGet]
    · rw [show alistGet ((k0, v0) :: rest) k = alistGet rest k from by simp [alistGet, h0]]
      rcases List.mem_cons.mp hmem with heq | hm
      · injection heq with h1 h2
        exact absurd h1.symm h0
      · exact ih hm

theorem mem_of_alistGet_eq_some {β : Type} (l : List (String × β)) (k : String) (v : β)
    (h : alistGet l k = some v) : (k, v) ∈ l := by
  induction l with
  | nil => cases h
  | cons p rest ih =>
    obtain ⟨k0, v0⟩ := p
    by_cases h0 : k0 = k
    · subst h0
      rw [show alistGet ((k0, v0) :: rest) k0 = some v0 from by simp [alistGet]] at h
      injection h with h
      subst h
      exact List.mem_cons_self _ _
    · rw [show alistGet ((k0, v0) :: rest) k = alistGet rest k from by
        simp [alistGet, h0]] at h
      exact List.mem_cons_of_mem _ (ih h)

theorem create_result (s : ManagerState) (m : String) :
    (∃ c, clientsGet s.email_clients m = some c ∧
      create_email_client s m = (s, Except.ok c)) ∨
    (clientsGet s.email_clients m = none ∧
      create_email_client s m =
        ({ s with
            email_clients := clientsSet s.email_clients m s.next_client
            next_client := s.next_client + 1 },
          Except.ok s.next_client)) ∨
    (∃ e, create_email_client s m = (s, Except.error e)) := by
  unfold create_email_client
  cases hc : clientsGet s.email_clients m with
  | some c => exact Or.inl ⟨c, rfl, rfl⟩
  | none =>
    cases hg : dictGet s.account_configs m with
    | none => exact Or.inr (Or.inr ⟨_, rfl⟩)
    | some cfg =>
      by_cases he : cfg.enabled
      · by_cases hp : s.available_providers.contains (strLower cfg.provider)
        · refine Or.inr (Or.inl ⟨rfl, ?_⟩)
          show (if ¬ cfg.enabled = true then _
            else if ¬ s.available_providers.contains (strLower cfg.provider) = true then _
            else _) = _
          rw [if_neg (fun hcon => hcon he), if_neg (fun hcon => hcon hp)]
        · refine Or.inr (Or.inr
            ⟨"Unsupported email provider: " ++ strLower cfg.provider, ?_⟩)
          show (if ¬ cfg.enabled = true then
              ((s, Except.error ("Email account '" ++ m ++ "' is disabled")) :
                ManagerState × Except String Nat)
            else if ¬ s.available_providers.contains (strLower cfg.provider) = true then
              (s, Except.error ("Unsupported email provider: " ++ strLower cfg.provider))
            else _) = (s, Except.error ("Unsupported email provider: " ++ strLower cfg.provider))
          rw [if_neg (fun hcon => hcon he), if_pos hp]
      · refine Or.inr (Or.inr ⟨"Email account '" ++ m ++ "' is disabled", ?_⟩)
        show (if ¬ cfg.enabled = true then
            ((s, Except.error ("Email account '" ++ m ++ "' is disabled")) :
              ManagerState × Except String Nat)
          else _) = (s, Except.error ("Email account '" ++ m ++ "' is disabled"))
        rw [if_pos he]

theorem create_ok_cached (s : ManagerState) (name : String) (c : Nat)
    (h : (create_email_client s name).2 = Except.ok c) :
    clientsGet (create_email_client s name).1.email_clients name = some c := by
  rcases create_result s name with ⟨c0, hc, heq⟩ | ⟨hc, heq⟩ | ⟨e, heq⟩
  · rw [heq] at h ⊢
    injection h with h
    rw [hc, h]
  · rw [heq] at h ⊢
    injection h with h
    show clientsGet (clientsSet s.email_clients name s.next_client) name = some c
    unfold clientsGet clientsSet
    rw [alistGet_set_self, h]
  · rw [heq] at h
    cases h

theorem get_client_error_of_none (s : ManagerState) (name : String)
    (h : clientsGet s.email_clients name = none) :
    ∃ msg, get_email_client s name = Except.error msg := by
  unfold get_email_client
  rw [h]
  exact ⟨_, rfl⟩

theorem update_account_evicts (s : ManagerState) (name : String) (u : AccountUpdates)
    (hnd : (s.email_clients.map Prod.fst).Nodup)
    (hp : (dictGet s.account_configs name).isSome) :
    clientsGet (update_account s name u).1.email_clients name = none ∧
      (update_account s name u).1.next_client = s.next_client := by
  unfold update_account
  rw [if_pos hp]
  exact ⟨alistGet_del_self _ _ hnd, rfl⟩

theorem delete_account_evicts (s : ManagerState) (name : String)
    (hnd : (s.email_clients.map Prod.fst).Nodup)
    (hp : (dictGet s.account_configs name).isSome) :
    clientsGet (delete_account s name).1.email_clients name = none ∧
      (delete_account s name).1.next_client = s.next_client := by
  unfold delete_account
  rw [if_pos hp]
  exact ⟨alistGet_del_self _ _ hnd, rfl⟩

theorem cacheMinBound_applyMgrOp (name : String) (b : Nat) (s : ManagerState)
    (op : MgrOp) (h : CacheMinBound name b s) : CacheMinBound name b (applyMgrOp s op) := by
  obtain ⟨hmem, hb⟩ := h
  cases op with
  | getClient m => exact ⟨hmem, hb⟩
  | addAccount cfg => exact ⟨hmem, hb⟩
  | createClient m =>
    rcases create_clients_cases s m with hcase | ⟨hcase, hnone⟩
    · rw [show applyMgrOp s (MgrOp.createClient m) = (create_email_client s m).1 from rfl,
        hcase]
      exact ⟨hmem, hb⟩
    · rw [show applyMgrOp s (MgrOp.createClient m) = (create_email_client s m).1 from rfl,
        hcase]
      refine ⟨?_, Nat.le_succ_of_le hb⟩
      intro d hd
      rcases mem_alistSet _ _ _ _ hd with hold | hnew
      · exact hmem d hold
      · injection hnew with h1 h2
        omega
  | updateAccount m u =>
    show CacheMinBound name b (update_account s m u).1
    unfold update_account
    by_cases hp : (dictGet s.account_configs m).isSome
    · rw [if_pos hp]
      exact ⟨fun d hd => hmem d (mem_alistDel _ _ _ hd), hb⟩
    · rw [if_neg hp]
      exact ⟨hmem, hb⟩
  | deleteAccount m =>
    show CacheMinBound name b (delete_account s m).1
    unfold delete_account
    by_cases hp : (dictGet s.account_configs m).isSome
    · rw [if_pos hp]
      exact ⟨fun d hd => hmem d (mem_alistDel _ _ _ hd), hb⟩
    · rw [if_neg hp]
      exact ⟨hmem, hb⟩

theorem cacheMinBound_runMgrOps (name : String) (b : Nat) (s : ManagerState)
    (ops : List MgrOp) (h : CacheMinBound name b s) :
    CacheMinBound name b (runMgrOps s ops) := by
  induction ops generalizing s with
  | nil => exact h
  | cons op rest ih => exact ih _ (cacheMinBound_applyMgrOp name b s op h)

/-- C2: client-cache coherence.  (1) A successful `create_email_client(name)`
stays cached: any further sequence of manager operations that contains no
`update_account(name)` or `delete_account(name)` leaves the cached instance in
place, and a repeated `create_email_client(name)` returns exactly it without
changing the state.  (2) After `update_account(name)` on an existing account,
the cached instance is evicted, `get_email_client(name)` raises, and no later
sequence of operations can ever surface the old instance again (any client the
cache later holds for `name` is a strictly newer construction).  (3) After
`delete_account(name)`, the cache entry is gone and `get_email_client(name)`
raises. -/
theorem C2_cache_coherence :
    (∀ (s : ManagerState) (name : String) (c : Nat) (ops : List MgrOp),
      (create_email_client s name).2 = Except.ok c →
      (∀ op ∈ ops, avoidsAccount name op) →
      create_email_client (runMgrOps (create_email_client s name).1 ops) name =
        (runMgrOps (create_email_client s name).1 ops, Except.ok c)) ∧
    (∀ (s : ManagerState) (name : String) (u : AccountUpdates),
      ManagerInv s → (dictGet s.account_configs name).isSome →
      clientsGet (update_account s name u).1.email_clients name = none ∧
      (∃ msg, get_email_client (update_account s name u).1 name = Except.error msg) ∧
      (∀ c : Nat, clientsGet s.email_clients name = some c →
        ∀ (ops : List MgrOp) (d : Nat),
          clientsGet (runMgrOps (update_account s name u).1 ops).email_clients name =
            some d → d ≠ c)) ∧
    (∀ (s : ManagerState) (name : String),
      ManagerInv s → (dictGet s.account_configs name).isSome →
      clientsGet (delete_account s name).1.email_clients name = none ∧
      (∃ msg, get_email_client (delete_account s name).1 name = Except.error msg)) := by
  refine ⟨?_, ?_, ?_⟩
  · intro s name c ops hok havoid
    have hcached := create_ok_cached s name c hok
    have hrun := runMgrOps_cached _ ops name havoid c hcached
    exact create_of_cached _ name c hrun
  · intro s name u hinv hp
    obtain ⟨hev, hnext⟩ := update_account_evicts s name u hinv.2 hp
    refine ⟨hev, get_client_error_of_none _ _ hev, ?_⟩
    intro c hc ops d hd
    have hcb : CacheMinBound name s.next_client (update_account s name u).1 := by
      refine ⟨?_, le_of_eq hnext.symm⟩
      intro e he
      exfalso
      have hsome : (clientsGet (update_account s name u).1.email_clients name).isSome :=
        alistGet_isSome_of_mem he
      rw [hev] at hsome
      cases hsome
    have hrun := cacheMinBound_runMgrOps name s.next_client _ ops hcb
    have hdmem := mem_of_alistGet_eq_some _ _ _ hd
    have hdb := hrun.1 d hdmem
    have hcmem := mem_of_alistGet_eq_some _ _ _ hc
    have hcb2 := hinv.1 _ hcmem
    omega
  · intro s name hinv hp
    obtain ⟨hev, _⟩ := delete_account_evicts s name hinv.2 hp
    exact ⟨hev, get_client_error_of_none _ _ hev⟩

/-- C2 witness: the three cache-coherence clauses evaluated on a concrete
one-account manager state. -/
theorem C2_cache_coherence_witness :
    (create_email_client
        (runMgrOps
          (create_email_client
            (ManagerState.mk [("acct", EmailAccountConfig.mk "acct" "gmail" "" true true)]
              [] ["gmail"] 0) "acct").1
          [MgrOp.createClient "other"]) "acct" =
      (runMgrOps
          (create_email_client
            (ManagerState.mk [("acct", EmailAccountConfig.mk "acct" "gmail" "" true true)]
              [] ["gmail"] 0) "acct").1
          [MgrOp.createClient "other"],
        Except.ok 0)) ∧
    clientsGet
        (update_account
          (ManagerState.mk [("acct", EmailAccountConfig.mk "acct" "gmail" "" true true)]
            [("acct", 0)] ["gmail"] 1) "acct"
          (AccountUpdates.mk none none (some true) none)).1.email_clients "acct" = none ∧
    clientsGet
        (delete_account
          (ManagerState.mk [("acct", EmailAccountConfig.mk "acct" "gmail" "" true true)]
            [("acct", 0)] ["gmail"] 1) "acct").1.email_clients "acct" = none := by
  refine ⟨?_, ?_, ?_⟩
  · exact C2_cache_coherence.1
      (ManagerState.mk [("acct", EmailAccountConfig.mk "acct" "gmail" "" true true)]
        [] ["gmail"] 0) "acct" 0 [MgrOp.createClient "other"] (by rfl)
      (by intro op hop
          simp only [List.mem_singleton] at hop
          rw [hop]
          exact trivial)
  · exact (C2_cache_coherence.2.1
      (ManagerState.mk [("acct", EmailAccountConfig.mk "acct" "gmail" "" true true)]
        [("acct", 0)] ["gmail"] 1) "acct" (AccountUpdates.mk none none (some true) none)
      ⟨by intro p hp; simp only [List.mem_singleton] at hp; rw [hp]; decide, by simp⟩
      (by rfl)).1
  · exact (C2_cache_coherence.2.2
      (ManagerState.mk [("acct", EmailAccountConfig.mk "acct" "gmail" "" true true)]
        [("acct", 0)] ["gmail"] 1) "acct"
      ⟨by intro p hp; simp only [List.mem_singleton] at hp; rw [hp]; decide, by simp⟩
      (by rfl)).1

/-! ## Scope-forced re-authentication (claim C8) -/

theorem loadExisting_mismatch (required : List String) (t : TokenFileData)
    (h : sameScopeSet t.scopes required = false) :
    loadExistingCredentials required (some t) = (none, none) := by
  simp [loadExistingCredentials, h]

/-- C8: whenever the persisted token file exists but its recorded granted-scope
set differs from the required scope set, `_authenticate` treats the token as
invalid and deletes the stale file (`loadExistingCredentials` yields no
credentials and no file), then behaves exactly as if no token file existed —
running the full re-authentication path, so any successful outcome comes from
the interactive consent flow, never from the mismatched token; and credentials
are taken directly from the token file only when its recorded scopes equal the
required scopes as sets (in which case they are the file's credentials). -/
theorem C8_scope_forced_reauth :
    (∀ (env : AuthEnv) (required : List String) (t : TokenFileData),
      sameScopeSet t.scopes required = false →
      loadExistingCredentials required (some t) = (none, none) ∧
      authenticate env required (some t) = authenticate env required none ∧
      (∀ c src, (authenticate env required (some t)).2 = Except.ok (c, src) →
        src = CredSource.fromOAuth)) ∧
    (∀ (env : AuthEnv) (required : List String) (tf : Option TokenFileData)
      (c : Credentials),
      (authenticate env required tf).2 = Except.ok (c, CredSource.fromTokenFile) →
      ∃ t, tf = some t ∧ sameScopeSet t.scopes required = true ∧ c = t.creds ∧
        t.creds.valid = true) := by
  constructor
  · intro env required t h
    have hload := loadExisting_mismatch required t h
    have hsame : authenticate env required (some t) = authenticate env required none := by
      unfold authenticate
      rw [hload]
      rfl
    refine ⟨hload, hsame, ?_⟩
    intro c src hok
    rw [hsame] at hok
    unfold authenticate loadExistingCredentials authAfterLoad oauthFlow at hok
    cases hex : env.credentials_file_exists with
    | false => simp [hex] at hok
    | true =>
      cases hres : env.oauth_result with
      | none => simp [hex, hres] at hok
      | some n =>
        simp [hex, hres] at hok
        exact hok.2.symm
  · intro env required tf c hok
    cases tf with
    | none =>
      exfalso
      unfold authenticate loadExistingCredentials authAfterLoad oauthFlow at hok
      cases hex : env.credentials_file_exists with
      | false => simp [hex] at hok
      | true =>
        cases hres : env.oauth_result with
        | none => simp [hex, hres] at hok
        | some n => simp [hex, hres] at hok
    | some t =>
      cases hsame : sameScopeSet t.scopes required with
      | false =>
        exfalso
        unfold authenticate at hok
        rw [loadExisting_mismatch required t hsame] at hok
        unfold authAfterLoad oauthFlow at hok
        cases hex : env.credentials_file_exists with
        | false => simp [hex] at hok
        | true =>
          cases hres : env.oauth_result with
          | none => simp [hex, hres] at hok
          | some n => simp [hex, hres] at hok
      | true =>
        have hload : loadExistingCredentials required (some t) =
            (some t.creds, some t) := by
          simp [loadExistingCredentials, hsame]
        unfold authenticate at hok
        rw [hload] at hok
        cases hvalid : t.creds.valid with
        | true =>
          unfold authAfterLoad at hok
          simp [hvalid] at hok
          exact ⟨t, rfl, hsame, hok.symm, hvalid⟩
        | false =>
          exfalso
          unfold authAfterLoad oauthFlow at hok
          cases hrt : t.creds.expired && t.creds.has_refresh_token with
          | false =>
            cases hex : env.credentials_file_exists with
            | false => simp [hvalid, hrt, hex] at hok
            | true =>
              cases hres : env.oauth_result with
              | none => simp [hvalid, hrt, hex, hres] at hok
              | some n => simp [hvalid, hrt, hex, hres] at hok
          | true =>
            cases href : env.refresh_result with
            | none =>
              cases hex : env.credentials_file_exists with
              | false => simp [hvalid, hrt, href, hex] at hok
              | true =>
                cases hres : env.oauth_result with
                | none => simp [hvalid, hrt, href, hex, hres] at hok
                | some n => simp [hvalid, hrt, href, hex, hres] at hok
            | some r =>
              cases hrv : r.valid with
              | true => simp [hvalid, hrt, href, hrv] at hok
              | false =>
                cases hex : env.credentials_file_exists with
                | false => simp [hvalid, hrt, href, hrv, hex] at hok
                | true =>
                  cases hres : env.oauth_result with
                  | none => simp [hvalid, hrt, href, hrv, hex, hres] at hok
                  | some n => simp [hvalid, hrt, href, hrv, hex, hres] at hok

/-- C8 witness: a token recorded with scope `gmail.readonly` against a
required set `{gmail.readonly, gmail.send}` is discarded and the outcome
comes from the consent flow. -/
theorem C8_scope_forced_reauth_witness :
    loadExistingCredentials ["gmail.readonly", "gmail.send"]
        (some (TokenFileData.mk ["gmail.readonly"]
          (Credentials.mk true false true ["gmail.readonly"]))) = (none, none) ∧
    authenticate
        (AuthEnv.mk none (some (Credentials.mk true false true
          ["gmail.readonly", "gmail.send"])) true)
        ["gmail.readonly", "gmail.send"]
        (some (TokenFileData.mk ["gmail.readonly"]
          (Credentials.mk true false true ["gmail.readonly"]))) =
      authenticate
        (AuthEnv.mk none (some (Credentials.mk true false true
          ["gmail.readonly", "gmail.send"])) true)
        ["gmail.readonly", "gmail.send"] none := by
  have h := C8_scope_forced_reauth.1
    (AuthEnv.mk none (some (Credentials.mk true false true
      ["gmail.readonly", "gmail.send"])) true)
    ["gmail.readonly", "gmail.send"]
    (TokenFileData.mk ["gmail.readonly"] (Credentials.mk true false true ["gmail.readonly"]))
    (by decide)
  exact ⟨h.1, h.2.1⟩

/-! ## Unread query construction (claims C9, C10) -/

/-- C9: `count_unread_messages(category="SOCIAL", hours_back=6)` delegates to
the client's `count_unread`, whose request carries the query
`is:unread after:<now-6h> category:social` (so it contains `is:unread`, an
`after:` clause at now minus 6 hours, and the social-category clause) with
`max_results = 1`; the returned count is the server's `resultSizeEstimate`
field, and 0 when the field is absent or the request fails. -/
theorem C9_unread_count_query :
    (∀ now : Int,
      (count_unread_request now 6 (some "SOCIAL")).q =
        "is:unread after:" ++ toString (now - 6 * 3600) ++ " category:social" ∧
      (count_unread_request now 6 (some "SOCIAL")).maxResults = 1) ∧
    (∀ (server : GmailServer) (now : Int),
      count_unread_messages server now (some "SOCIAL") (some 6) =
        count_unread server now 6 (some "SOCIAL")) ∧
    (∀ (server : GmailServer) (now hours : Int) (category : Option String)
      (resp : GmailListResponse),
      server (count_unread_request now hours category) = some resp →
      count_unread server now hours category = resp.resultSizeEstimate.getD 0) ∧
    (∀ (server : GmailServer) (now hours : Int) (category : Option String),
      server (count_unread_request now hours category) = none →
      count_unread server now hours category = 0) := by
  refine ⟨?_, ?_, ?_, ?_⟩
  · intro now
    have hcat : alistGet cat_map (strUpper (pyOrStr (some "SOCIAL") "PRIMARY")) =
        some "category:social" := by decide
    constructor
    · show unreadQuery now 6 (some "SOCIAL") = _
      unfold unreadQuery
      rw [hcat]
      show ("is:unread after:" ++ toString (now - 6 * 3600)) ++ " " ++ "category:social" =
        "is:unread after:" ++ toString (now - 6 * 3600) ++ " category:social"
      conv_lhs => rw [String.append_assoc]
      rw [show (" " ++ "category:social" : String) = " category:social" from by decide]
    · rfl
  · intro server now
    rfl
  · intro server now hours category resp h
    unfold count_unread
    rw [h]
    rcases resp with ⟨est, msgs⟩
    cases est <;> rfl
  · intro server now hours category h
    unfold count_unread
    rw [h]

/-- C9 witness: the count clauses evaluated against a concrete server whose
estimate is 5, and against an erroring server. -/
theorem C9_unread_count_query_witness :
    count_unread (fun _ => some (GmailListResponse.mk (some 5) [])) 1700000000 6
        (some "SOCIAL") =
      (GmailListResponse.mk (some 5) []).resultSizeEstimate.getD 0 ∧
    count_unread (fun _ => none) 1700000000 6 (some "SOCIAL") = 0 := by
  constructor
  · exact C9_unread_count_query.2.2.1 (fun _ => some (GmailListResponse.mk (some 5) []))
      1700000000 6 (some "SOCIAL") (GmailListResponse.mk (some 5) []) rfl
  · exact C9_unread_count_query.2.2.2 (fun _ => none) 1700000000 6 (some "SOCIAL") rfl

/-- C10: every message `get_unread_messages` returns has `is_read = False`
and `provider = 'gmail'`; and when `hours_back` or `folder` are omitted
(`None`), both `get_unread_messages` and `count_unread_messages` behave
exactly as a query over the last 24 hours on the PRIMARY category. -/
theorem C10_unread_defaults :
    (∀ (server : GmailServer) (store : MessageStore) (now : Int)
      (max_results : Nat) (folder : Option String) (hours_back : Option Int),
      ∀ m ∈ get_unread_messages server store now max_results folder hours_back,
        m.is_read = false ∧ m.provider = "gmail") ∧
    (∀ (server : GmailServer) (store : MessageStore) (now : Int) (max_results : Nat),
      get_unread_messages server store now max_results none none =
        get_unread_messages server store now max_results (some "PRIMARY") (some 24)) ∧
    (∀ (server : GmailServer) (now : Int),
      count_unread_messages server now none none =
        count_unread server now 24 (some "PRIMARY")) := by
  refine ⟨?_, ?_, ?_⟩
  · intro server store now max_results folder hours_back m hm
    unfold get_unread_messages at hm
    rcases List.mem_map.mp hm with ⟨x, _, rfl⟩
    exact ⟨rfl, rfl⟩
  · intro server store now max_results
    rfl
  · intro server now
    rfl

/-- C10 witness: the per-message flags evaluated on a concrete server and
message store returning one unread message. -/
theorem C10_unread_defaults_witness :
    (StandardMsg.mk "m1" "t1" "s" "f" "to" "d" "sn" false "gmail").is_read = false ∧
    (StandardMsg.mk "m1" "t1" "s" "f" "to" "d" "sn" false "gmail").provider = "gmail" := by
  exact C10_unread_defaults.1
    (fun _ => some (GmailListResponse.mk (some 1) ["m1"]))
    (fun i => some (FormattedMsg.mk i "t1" "s" "f" "to" "d" "sn"))
    1700000000 10 none none
    (StandardMsg.mk "m1" "t1" "s" "f" "to" "d" "sn" false "gmail")
    (by decide)

/-! ## Adapter feature gating (claim C4) -/

/-- C4 (as stated in the spec) is false of the adapters: the Outlook adapter
reports `supports_feature('html_email') = False`, yet calling its `send_email`
with `html_body` set returns a failure envelope (`success = False`) instead of
succeeding with the HTML dropped and a warning logged. -/
theorem C4_counterexample :
    outlook_supports_feature "html_email" = false ∧
    (outlook_send_email
        (OutgoingEmail.mk (PyStrOrList.str "a@b.co") "s" "b" none none
          (some "<p>hi</p>") none)).success = false ∧
    (outlook_send_email
        (OutgoingEmail.mk (PyStrOrList.str "a@b.co") "s" "b" none none
          (some "<p>hi</p>") none)).error =
      some "Outlook client not fully implemented" := by
  exact ⟨rfl, rfl, rfl⟩

/-- C4 (amended): the feature gating lives one layer above the adapter, in
`EmailService.send_email`: when `html_body` is set but the client's
`supports_feature('html_email')` is false (resp. attachments vs
`'attachments'`), the service drops the unsupported field, logs a warning
naming the provider, and still delegates the send — no error is raised; the
Gmail adapter itself reports both features supported (so its gating condition
is never met) and the stub Outlook adapter simply returns a failure
envelope. -/
theorem C4_feature_gating :
    (∀ (client : EmailClientModel) (args : OutgoingEmail),
      pyTruthyStr args.html_body = true → client.supports "html_email" = false →
      validate_email_addresses (some args.to_addr) args.cc args.bcc = true →
      email_service_send client args true =
        (service_finish client.provider_name
          (client.send { args with
            html_body := none
            attachments := (gatedAttachments client args.attachments).1 }),
          (client.provider_name ++ " doesn't support HTML emails, sending plain text only")
            :: (gatedAttachments client args.attachments).2)) ∧
    (∀ (client : EmailClientModel) (args : OutgoingEmail),
      pyTruthyList args.attachments = true → client.supports "attachments" = false →
      validate_email_addresses (some args.to_addr) args.cc args.bcc = true →
      email_service_send client args true =
        (service_finish client.provider_name
          (client.send { args with
            html_body := (gatedHtml client args.html_body).1
            attachments := none }),
          (gatedHtml client args.html_body).2 ++
            [client.provider_name ++ " doesn't support attachments, ignoring"])) ∧
    gmail_supports_feature "html_email" = true ∧
    gmail_supports_feature "attachments" = true := by
  refine ⟨?_, ?_, rfl, rfl⟩
  · intro client args hhtml hsup hval
    unfold email_service_send
    rw [if_neg (by simp [hval])]
    have hgh : gatedHtml client args.html_body =
        (none, [client.provider_name ++
          " doesn't support HTML emails, sending plain text only"]) := by
      unfold gatedHtml
      rw [if_pos (by simp [hhtml, hsup])]
    rw [hgh]
    rfl
  · intro client args hatt hsup hval
    unfold email_service_send
    rw [if_neg (by simp [hval])]
    have hga : gatedAttachments client args.attachments =
        (none, [client.provider_name ++ " doesn't support attachments, ignoring"]) := by
      unfold gatedAttachments
      rw [if_pos (by simp [hatt, hsup])]
    rw [hga]

/-- C4 witness: the gating clause evaluated on a stub client lacking
`html_email`: the send still succeeds with the HTML dropped and the warning
logged. -/
theorem C4_feature_gating_witness :
    email_service_send
        (EmailClientModel.mk "stub" (fun _ => false)
          (fun _ => SendResult.mk true none "stub"))
        (OutgoingEmail.mk (PyStrOrList.str "a@b.co") "s" "b" none none
          (some "<p>hi</p>") none) true =
      (SendResult.mk true none "stub",
        ["stub doesn't support HTML emails, sending plain text only"]) := by
  have h := C4_feature_gating.1
    (EmailClientModel.mk "stub" (fun _ => false)
      (fun _ => SendResult.mk true none "stub"))
    (OutgoingEmail.mk (PyStrOrList.str "a@b.co") "s" "b" none none
      (some "<p>hi</p>") none)
    (by decide) rfl (by decide)
  rw [h]
  rfl

/-! ## Outgoing MIME composition (claim C5) -/

/-- C5 (as stated in the spec) is false in the both-requested case: with one
attachment and an HTML body, `_create_message` builds a single flat
`multipart/alternative` container holding the text part, the HTML part and
the attachment part side by side — not a `multipart/mixed` container with a
nested alternative part. -/
theorem C5_counterexample :
    create_message
        (MimeEnv.mk (fun _ => true) (fun _ => some ("text", "plain")))
        (PyStrOrList.str "a@b.co") "s" "b" none none (some ["f.txt"])
        (some "<p>hi</p>") =
      MimeMessage.multipart "alternative"
        (MsgHeaders.mk "a@b.co" "s" none none)
        [MimePart.textPart "plain" "b", MimePart.textPart "html" "<p>hi</p>",
          MimePart.filePart "text" "plain" "f.txt"] ∧
    ("alternative" : String) ≠ "mixed" := by
  constructor
  · rfl
  · decide

/-- C5 (amended): no attachments and no HTML body give a single-part text
message; attachments only give a flat `multipart/mixed` of the text part and
the attachment parts; HTML only gives `multipart/alternative` of text and
html; both give a single flat `multipart/alternative` holding text, html and
the attachment parts (the container subtype is `alternative` whenever an HTML
body is requested); and list-valued recipient fields are joined with `', '`
into one header value. -/
theorem C5_mime_composition :
    (∀ (env : MimeEnv) (to_addr : PyStrOrList) (subject body : String)
      (cc bcc : Option PyStrOrList) (attachments : Option (List String))
      (html_body : Option String),
      pyTruthyList attachments = false → pyTruthyStr html_body = false →
      create_message env to_addr subject body cc bcc attachments html_body =
        MimeMessage.single (composeHeaders to_addr subject cc bcc) body) ∧
    (∀ (env : MimeEnv) (to_addr : PyStrOrList) (subject body : String)
      (cc bcc : Option PyStrOrList) (attachments : Option (List String))
      (html_body : Option String),
      pyTruthyList attachments = true → pyTruthyStr html_body = false →
      create_message env to_addr subject body cc bcc attachments html_body =
        MimeMessage.multipart "mixed" (composeHeaders to_addr subject cc bcc)
          (MimePart.textPart "plain" body ::
            attachmentParts env (attachments.getD []))) ∧
    (∀ (env : MimeEnv) (to_addr : PyStrOrList) (subject body : String)
      (cc bcc : Option PyStrOrList) (attachments : Option (List String))
      (html_body : Option String),
      pyTruthyList attachments = false → pyTruthyStr html_body = true →
      create_message env to_addr subject body cc bcc attachments html_body =
        MimeMessage.multipart "alternative" (composeHeaders to_addr subject cc bcc)
          [MimePart.textPart "plain" body,
            MimePart.textPart "html" (html_body.getD "")]) ∧
    (∀ (env : MimeEnv) (to_addr : PyStrOrList) (subject body : String)
      (cc bcc : Option PyStrOrList) (attachments : Option (List String))
      (html_body : Option String),
      pyTruthyList attachments = true → pyTruthyStr html_body = true →
      create_message env to_addr subject body cc bcc attachments html_body =
        MimeMessage.multipart "alternative" (composeHeaders to_addr subject cc bcc)
          (MimePart.textPart "plain" body ::
            MimePart.textPart "html" (html_body.getD "") ::
            attachmentParts env (attachments.getD []))) ∧
    (∀ (l : List String) (subject : String) (cc bcc : Option PyStrOrList),
      (composeHeaders (PyStrOrList.list l) subject cc bcc).to_addr =
        String.intercalate ", " l) ∧
    (∀ (to_addr : PyStrOrList) (subject : String) (a : String) (l : List String)
      (bcc : Option PyStrOrList),
      (composeHeaders to_addr subject (some (PyStrOrList.list (a :: l))) bcc).cc =
        some (String.intercalate ", " (a :: l))) := by
  have hempty : ∀ (attachments : Option (List String)),
      pyTruthyList attachments = false → attachments.getD [] = [] := by
    intro a h
    match a with
    | none => rfl
    | some [] => rfl
    | some (_ :: _) => simp [pyTruthyList] at h
  refine ⟨?_, ?_, ?_, ?_, ?_, ?_⟩
  · intro env to_addr subject body cc bcc attachments html_body hatt hhtml
    unfold create_message
    rw [if_neg (by simp [hatt, hhtml])]
  · intro env to_addr subject body cc bcc attachments html_body hatt hhtml
    unfold create_message
    rw [if_pos (by simp [hatt]), hhtml]
    simp
  · intro env to_addr subject body cc bcc attachments html_body hatt hhtml
    unfold create_message
    rw [if_pos (by simp [hhtml]), hhtml, hempty attachments hatt]
    simp [attachmentParts]
  · intro env to_addr subject body cc bcc attachments html_body hatt hhtml
    unfold create_message
    rw [if_pos (by simp [hatt]), hhtml]
    simp
  · intro l subject cc bcc
    rfl
  · intro to_addr subject a l bcc
    rfl

/-- C5 witness: the four composition cases and the joining clauses evaluated
at concrete arguments. -/
theorem C5_mime_composition_witness :
    create_message (MimeEnv.mk (fun _ => true) (fun _ => none))
        (PyStrOrList.str "a@b.co") "s" "b" none none none none =
      MimeMessage.single
        (composeHeaders (PyStrOrList.str "a@b.co") "s" none none) "b" ∧
    create_message (MimeEnv.mk (fun _ => true) (fun _ => none))
        (PyStrOrList.str "a@b.co") "s" "b" none none (some ["f.bin"]) none =
      MimeMessage.multipart "mixed"
        (composeHeaders (PyStrOrList.str "a@b.co") "s" none none)
        (MimePart.textPart "plain" "b" ::
          attachmentParts (MimeEnv.mk (fun _ => true) (fun _ => none)) ["f.bin"]) ∧
    create_message (MimeEnv.mk (fun _ => true) (fun _ => none))
        (PyStrOrList.list ["a@b.co", "c@d.co"]) "s" "b" none none none
        (some "<p>hi</p>") =
      MimeMessage.multipart "alternative"
        (composeHeaders (PyStrOrList.list ["a@b.co", "c@d.co"]) "s" none none)
        [MimePart.textPart "plain" "b", MimePart.textPart "html" "<p>hi</p>"] ∧
    (composeHeaders (PyStrOrList.list ["a@b.co", "c@d.co"]) "s" none none).to_addr =
      String.intercalate ", " ["a@b.co", "c@d.co"] := by
  refine ⟨?_, ?_, ?_, ?_⟩
  · exact C5_mime_composition.1 _ _ _ _ _ _ _ _ (by decide) (by decide)
  · exact C5_mime_composition.2.1 _ _ _ _ _ _ (some ["f.bin"]) none (by decide) (by decide)
  · exact C5_mime_composition.2.2.1 _ _ _ _ _ _ none (some "<p>hi</p>")
      (by decide) (by decide)
  · exact C5_mime_composition.2.2.2.2.1 ["a@b.co", "c@d.co"] "s" none none

/-! ## Base64 lemmas (claims C6, C7, C3) -/

theorem b64CharVal_b64Char : ∀ n, n < 64 → b64CharVal (b64Char n) = some n := by
  decide

theorem b64Char_ne_pad : ∀ n, n < 64 → b64Char n ≠ '=' := by
  decide

theorem b64uSextets_lt (bs : List Nat) (h : ∀ x ∈ bs, x < 256) :
    ∀ s ∈ b64uSextets bs, s < 64 := by
  induction bs using b64uSextets.induct with
  | case1 a b c rest ih =>
    intro s hs
    have ha := h a (by simp)
    have hb := h b (by simp)
    have hc := h c (by simp)
    simp only [b64uSextets, List.mem_cons] at hs
    rcases hs with rfl | rfl | rfl | rfl | hs
    · omega
    · omega
    · omega
    · omega
    · exact ih (fun x hx => h x (by simp [hx])) s hs
  | case2 a b =>
    intro s hs
    have ha := h a (by simp)
    have hb := h b (by simp)
    simp only [b64uSextets, List.mem_cons] at hs
    rcases hs with rfl | rfl | rfl | hs
    · omega
    · omega
    · omega
    · cases hs
  | case3 a =>
    intro s hs
    have ha := h a (by simp)
    simp only [b64uSextets, List.mem_cons] at hs
    rcases hs with rfl | rfl | hs
    · omega
    · omega
    · cases hs
  | case4 =>
    intro s hs
    cases hs

theorem b64Vals_map (l : List Nat) (h : ∀ s ∈ l, s < 64) :
    b64Vals (l.map b64Char) = some l := by
  induction l with
  | nil => rfl
  | cons s rest ih =>
    have hs := h s (by simp)
    simp only [List.map_cons, b64Vals]
    rw [b64CharVal_b64Char s hs, ih (fun x hx => h x (by simp [hx]))]

theorem b64Combine_b64uSextets (bs : List Nat) (h : ∀ x ∈ bs, x < 256) :
    b64Combine (b64uSextets bs) = some bs := by
  induction bs using b64uSextets.induct with
  | case1 a b c rest ih =>
    have ha := h a (by simp)
    have hb := h b (by simp)
    have hc := h c (by simp)
    simp only [b64uSextets, b64Combine]
    rw [ih (fun x hx => h x (by simp [hx]))]
    simp only [Option.map_some']
    congr 1
    have e1 : a / 4 * 4 + ((a % 4) * 16 + b / 16) / 16 = a := by omega
    have e2 : (((a % 4) * 16 + b / 16) % 16) * 16 + ((b % 16) * 4 + c / 64) / 4 = b := by
      omega
    have e3 : (((b % 16) * 4 + c / 64) % 4) * 64 + c % 64 = c := by omega
    rw [e1, e2, e3]
  | case2 a b =>
    have ha := h a (by simp)
    have hb := h b (by simp)
    simp only [b64uSextets, b64Combine]
    have e1 : a / 4 * 4 + ((a % 4) * 16 + b / 16) / 16 = a := by omega
    have e2 : (((a % 4) * 16 + b / 16) % 16) * 16 + (b % 16) * 4 / 4 = b := by omega
    rw [e1, e2]
  | case3 a =>
    have ha := h a (by simp)
    simp only [b64uSextets, b64Combine]
    have e1 : a / 4 * 4 + (a % 4) * 16 / 16 = a := by omega
    rw [e1]
  | case4 => rfl

theorem b64uPadLen_le_two (bs : List Nat) : b64uPadLen bs ≤ 2 := by
  induction bs using b64uPadLen.induct <;> simp [b64uPadLen] <;> omega

theorem b64uSextets_length_mod (bs : List Nat) :
    ((b64uSextets bs).length + b64uPadLen bs) % 4 = 0 ∧
      (b64uSextets bs).length % 4 ≠ 1 := by
  induction bs using b64uSextets.induct with
  | case1 a b c rest ih =>
    simp only [b64uSextets, b64uPadLen, List.length_cons] at *
    omega
  | case2 a b => simp [b64uSextets, b64uPadLen]
  | case3 a => simp [b64uSextets, b64uPadLen]
  | case4 => simp [b64uSextets, b64uPadLen]

theorem takeWhile_ne_pad_append (xs : List Char) (p : Nat)
    (h : ∀ c ∈ xs, c ≠ '=') :
    (xs ++ List.replicate p '=').takeWhile (fun c => c ≠ '=') = xs := by
  induction xs with
  | nil =>
    cases p with
    | zero => rfl
    | succ q => rfl
  | cons x rest ih =>
    have hx : x ≠ '=' := h x (by simp)
    have hrest := ih (fun c hc => h c (by simp [hc]))
    simp only [List.cons_append, List.takeWhile]
    rw [show (decide (x ≠ '=')) = true from by simp [hx]]
    exact congrArg (x :: ·) hrest

theorem b64uDecode_encode (bs : List Nat) (h : ∀ x ∈ bs, x < 256) :
    b64uDecode (b64uEncodeBody bs ++ List.replicate (b64uPadLen bs) '=') = some bs := by
  have hchars : ∀ c ∈ b64uEncodeBody bs, c ≠ '=' := by
    intro c hc
    simp only [b64uEncodeBody, List.mem_map] at hc
    obtain ⟨s, hsmem, rfl⟩ := hc
    exact b64Char_ne_pad s (b64uSextets_lt bs h s hsmem)
  have hbody : (b64uEncodeBody bs ++ List.replicate (b64uPadLen bs) '=').takeWhile
      (fun c => c ≠ '=') = b64uEncodeBody bs :=
    takeWhile_ne_pad_append _ _ hchars
  have hlen : (b64uEncodeBody bs).length = (b64uSextets bs).length := by
    simp [b64uEncodeBody]
  have hmod := b64uSextets_length_mod bs
  unfold b64uDecode
  rw [hbody]
  rw [List.drop_left]
  rw [if_pos ?hcond]
  case hcond =>
    refine ⟨?_, ?_, ?_⟩
    · simp
    · simp only [List.length_append, List.length_replicate, hlen]
      exact hmod.1
    · rw [hlen]
      exact hmod.2
  rw [show b64Vals (b64uEncodeBody bs) = some (b64uSextets bs) from
    b64Vals_map _ (b64uSextets_lt bs h)]
  exact b64Combine_b64uSextets bs h

theorem fixPadding_stripped (bs : List Nat) (k : Nat) (hk : k ≤ b64uPadLen bs) :
    fixPadding (b64uEncodeBody bs ++ List.replicate (b64uPadLen bs - k) '=') =
      b64uEncodeBody bs ++ List.replicate (b64uPadLen bs) '=' := by
  have hlen : (b64uEncodeBody bs).length = (b64uSextets bs).length := by
    simp [b64uEncodeBody]
  have hmod := (b64uSextets_length_mod bs).1
  have hple := b64uPadLen_le_two bs
  unfold fixPadding
  rw [List.length_append, List.length_replicate, hlen]
  by_cases hzero : k = 0
  · subst hzero
    rw [if_neg (by omega), Nat.sub_zero]
  · have hmod2 : ((b64uSextets bs).length + (b64uPadLen bs - k)) % 4 =
        (4 - k) % 4 := by omega
    rw [if_pos (by omega)]
    rw [List.append_assoc]
    congr 1
    rw [← List.replicate_add]
    congr 1
    omega

/-! ## UTF-8 lemmas (claims C6, C3) -/

theorem utf8DecodeOne_encodeChar (c : Nat) (h : ValidScalar c) (rest : List Nat) :
    utf8DecodeOne (utf8EncodeChar c ++ rest) = some (c, rest) := by
  unfold ValidScalar at h
  by_cases h1 : c < 128
  · rw [show utf8EncodeChar c = [c] from by unfold utf8EncodeChar; rw [if_pos h1]]
    rw [List.singleton_append]
    simp only [utf8DecodeOne]
    rw [if_pos h1]
  · by_cases h2 : c < 2048
    · rw [show utf8EncodeChar c = [192 + c / 64, 128 + c % 64] from by
        unfold utf8EncodeChar
        rw [if_neg h1, if_pos h2]]
      rw [show ([192 + c / 64, 128 + c % 64] : List Nat) ++ rest =
        (192 + c / 64) :: ((128 + c % 64) :: rest) from rfl]
      simp only [utf8DecodeOne]
      rw [if_neg (by omega),
        if_pos (show 194 ≤ 192 + c / 64 ∧ 192 + c / 64 < 224 by omega)]
      rw [if_pos (show isCont (128 + c % 64) from by unfold isCont; omega)]
      rw [show (192 + c / 64 - 192) * 64 + (128 + c % 64 - 128) = c from by omega]
    · by_cases h3 : c < 65536
      · rw [show utf8EncodeChar c =
            [224 + c / 4096, 128 + (c / 64) % 64, 128 + c % 64] from by
          unfold utf8EncodeChar
          rw [if_neg h1, if_neg h2, if_pos h3]]
        rw [show ([224 + c / 4096, 128 + (c / 64) % 64, 128 + c % 64] : List Nat)
            ++ rest =
          (224 + c / 4096) :: ((128 + (c / 64) % 64) :: ((128 + c % 64) :: rest)) from
            rfl]
        simp only [utf8DecodeOne]
        rw [if_neg (by omega), if_neg (by omega),
          if_pos (show 224 ≤ 224 + c / 4096 ∧ 224 + c / 4096 < 240 by omega)]
        rw [if_pos ?cond3]
        case cond3 =>
          refine ⟨by unfold isCont; omega, by unfold isCont; omega, ?_, ?_⟩
          · by_cases hb : c / 4096 = 0
            · refine Or.inr ?_
              have hd1 : 32 ≤ c / 64 := by omega
              have hd2 : c / 64 < 64 := by omega
              have hd3 : c / 64 % 64 = c / 64 := Nat.mod_eq_of_lt hd2
              omega
            · exact Or.inl (by omega)
          · by_cases hb : c / 4096 = 13
            · refine Or.inr ?_
              have hs : c < 55296 := by omega
              have hd1 : c / 64 < 864 := by omega
              have hd2 : 832 ≤ c / 64 := by omega
              have hd3 : c / 64 % 64 = c / 64 - 832 := by
                have := Nat.mod_eq_of_lt (show c / 64 - 832 < 64 from by omega)
                omega
              omega
            · exact Or.inl (by omega)
        rw [show (224 + c / 4096 - 224) * 4096 + (128 + (c / 64) % 64 - 128) * 64 +
          (128 + c % 64 - 128) = c from by omega]
      · rw [show utf8EncodeChar c =
            [240 + c / 262144, 128 + (c / 4096) % 64, 128 + (c / 64) % 64,
              128 + c % 64] from by
          unfold utf8EncodeChar
          rw [if_neg h1, if_neg h2, if_neg h3]]
        rw [show ([240 + c / 262144, 128 + (c / 4096) % 64, 128 + (c / 64) % 64,
            128 + c % 64] : List Nat) ++ rest =
          (240 + c / 262144) :: ((128 + (c / 4096) % 64) :: ((128 + (c / 64) % 64) ::
            ((128 + c % 64) :: rest))) from rfl]
        simp only [utf8DecodeOne]
        rw [if_neg (by omega), if_neg (by omega), if_neg (by omega),
          if_pos (show 240 ≤ 240 + c / 262144 ∧ 240 + c / 262144 < 245 by omega)]
        rw [if_pos ?cond4]
        case cond4 =>
          refine ⟨by unfold isCont; omega, by unfold isCont; omega,
            by unfold isCont; omega, ?_, ?_⟩
          · by_cases hb : c / 262144 = 0
            · refine Or.inr ?_
              have hd1 : 16 ≤ c / 4096 := by omega
              have hd2 : c / 4096 < 64 := by omega
              have hd3 : c / 4096 % 64 = c / 4096 := Nat.mod_eq_of_lt hd2
              omega
            · exact Or.inl (by omega)
          · by_cases hb : c / 262144 = 4
            · refine Or.inr ?_
              have hd1 : 256 ≤ c / 4096 := by omega
              have hd2 : c / 4096 < 272 := by omega
              have hd3 : c / 4096 % 64 = c / 4096 - 256 := by
                have := Nat.mod_eq_of_lt (show c / 4096 - 256 < 64 from by omega)
                omega
              omega
            · exact Or.inl (by omega)
        rw [show (240 + c / 262144 - 240) * 262144 + (128 + (c / 4096) % 64 - 128) *
          4096 + (128 + (c / 64) % 64 - 128) * 64 + (128 + c % 64 - 128) = c from by
          omega]

theorem utf8DecodeOne_shrinks (bs : List Nat) (c : Nat) (rest2 : List Nat)
    (h : utf8DecodeOne bs = some (c, rest2)) : rest2.length < bs.length := by
  cases bs with
  | nil => cases h
  | cons b rest =>
    simp only [utf8DecodeOne] at h
    split_ifs at h with hc1 hc2 hc3 hc4
    · injection h with h
      injection h with h1 h2
      subst h2
      simp only [List.length_cons]
      omega
    · cases rest with
      | nil => cases h
      | cons b2 rest2x =>
        simp only at h
        split_ifs at h
        injection h with h
        injection h with h1 h2
        subst h2
        simp only [List.length_cons]
        omega
    · cases rest with
      | nil => cases h
      | cons b2 restx =>
        cases restx with
        | nil => cases h
        | cons b3 rest2x =>
          simp only at h
          split_ifs at h
          injection h with h
          injection h with h1 h2
          subst h2
          simp only [List.length_cons]
          omega
    · cases rest with
      | nil => cases h
      | cons b2 restx =>
        cases restx with
        | nil => cases h
        | cons b3 restxx =>
          cases restxx with
          | nil => cases h
          | cons b4 rest2x =>
            simp only at h
            split_ifs at h
            injection h with h
            injection h with h1 h2
            subst h2
            simp only [List.length_cons]
            omega

theorem utf8DecodeLoop_fuel (fuel : Nat) (bs : List Nat) (h : bs.length ≤ fuel) :
    utf8DecodeLoop fuel bs = utf8DecodeLoop bs.length bs := by
  induction fuel using Nat.strong_induction_on generalizing bs with
  | _ fuel ih =>
    cases fuel with
    | zero =>
      have : bs = [] := by
        cases bs with
        | nil => rfl
        | cons x xs => simp at h
      subst this
      rfl
    | succ f =>
      cases bs with
      | nil => rfl
      | cons b rest =>
        simp only [utf8DecodeLoop]
        cases hone : utf8DecodeOne (b :: rest) with
        | none => rfl
        | some p =>
          obtain ⟨c, rest2⟩ := p
          simp only
          have hlt := utf8DecodeOne_shrinks _ _ _ hone
          simp only [List.length_cons] at hlt h
          have e1 : utf8DecodeLoop f rest2 = utf8DecodeLoop rest2.length rest2 :=
            ih f (by omega) rest2 (by omega)
          have e2 : utf8DecodeLoop rest.length rest2 =
              utf8DecodeLoop rest2.length rest2 :=
            ih rest.length (by omega) rest2 (by omega)
          rw [e1, e2]

theorem utf8Decode_encodeChar (c : Nat) (h : ValidScalar c) (rest : List Nat) :
    utf8Decode (utf8EncodeChar c ++ rest) = (utf8Decode rest).map (c :: ·) := by
  have hone := utf8DecodeOne_encodeChar c h rest
  cases henc : utf8EncodeChar c with
  | nil =>
    rw [henc] at hone
    exfalso
    have := utf8DecodeOne_shrinks rest c rest (by simpa using hone)
    omega
  | cons e etail =>
    rw [henc] at hone
    unfold utf8Decode
    rw [show (e :: etail) ++ rest = e :: (etail ++ rest) from rfl]
    rw [show (e :: (etail ++ rest)).length = (etail ++ rest).length + 1 from by simp]
    simp only [utf8DecodeLoop]
    rw [show (e :: (etail ++ rest) : List Nat) = (e :: etail) ++ rest from rfl, hone]
    simp only
    rw [utf8DecodeLoop_fuel ((etail ++ rest).length) rest (by simp)]

theorem utf8_roundtrip (cps : List Nat) (h : ∀ c ∈ cps, ValidScalar c) :
    utf8Decode (utf8Encode cps) = some cps := by
  induction cps with
  | nil => rfl
  | cons c rest ih =>
    have hc := h c (by simp)
    have hrest := ih (fun x hx => h x (by simp [hx]))
    rw [show utf8Encode (c :: rest) = utf8EncodeChar c ++ utf8Encode rest from by
      simp [utf8Encode]]
    rw [utf8Decode_encodeChar c hc, hrest]
    rfl

theorem utf8EncodeChar_lt (c : Nat) (hv : c < 1114112) :
    ∀ b ∈ utf8EncodeChar c, b < 256 := by
  intro b hb
  unfold utf8EncodeChar at hb
  split_ifs at hb with h1 h2 h3
  · simp only [List.mem_singleton] at hb
    omega
  · simp only [List.mem_cons, List.not_mem_nil, or_false] at hb
    rcases hb with rfl | rfl <;> omega
  · simp only [List.mem_cons, List.not_mem_nil, or_false] at hb
    rcases hb with rfl | rfl | rfl <;> omega
  · simp only [List.mem_cons, List.not_mem_nil, or_false] at hb
    rcases hb with rfl | rfl | rfl | rfl <;> omega

theorem utf8Encode_lt (cps : List Nat) (h : ∀ c ∈ cps, ValidScalar c) :
    ∀ b ∈ utf8Encode cps, b < 256 := by
  intro b hb
  unfold utf8Encode at hb
  rcases List.mem_flatten.mp hb with ⟨l, hl, hbl⟩
  rcases List.mem_map.mp hl with ⟨c, hcmem, rfl⟩
  have hc := h c hcmem
  unfold ValidScalar at hc
  exact utf8EncodeChar_lt c (by omega) b hbl

/-- Scalar values of a Lean string are valid Unicode scalars. -/
theorem string_scalars_valid (s : String) : ∀ c ∈ s.data.map Char.toNat, ValidScalar c := by
  intro c hc
  rcases List.mem_map.mp hc with ⟨ch, _, rfl⟩
  have hv := ch.valid
  unfold ValidScalar
  rcases hv with h | h
  · exact Or.inl h
  · exact Or.inr ⟨h.1, h.2⟩

theorem renderCps_map_toNat (s : String) :
    renderCps (s.data.map Char.toNat) = s := by
  unfold renderCps
  rw [List.map_map]
  have : (Char.ofNat ∘ Char.toNat) = id := by
    funext ch
    simp [Function.comp, Char.ofNat_toNat]
  rw [this, List.map_id]

/-! ## Quoted-printable lemmas (claim C6) -/

theorem hexByteVal_hexDigitUpper : ∀ n, n < 16 →
    hexByteVal (hexDigitUpper n) = n ∧ isHexByte (hexDigitUpper n) ∧
      hexDigitUpper n ≠ 13 ∧ hexDigitUpper n ≠ 10 ∧ hexDigitUpper n ≠ 61 := by
  decide

theorem qpStep_encodeByte (b : Nat) (hb : b < 256) (tail : List Nat) :
    qpStep (qpEncodeByte b ++ tail) = ([b], tail) := by
  by_cases hlit : 33 ≤ b ∧ b ≤ 126 ∧ b ≠ 61
  · rw [show qpEncodeByte b = [b] from by unfold qpEncodeByte; rw [if_pos hlit]]
    rw [List.singleton_append]
    simp only [qpStep]
    rw [if_neg hlit.2.2]
  · rw [show qpEncodeByte b = [61, hexDigitUpper (b / 16), hexDigitUpper (b % 16)] from by
      unfold qpEncodeByte; rw [if_neg hlit]]
    have h1 := hexByteVal_hexDigitUpper (b / 16) (by omega)
    have h2 := hexByteVal_hexDigitUpper (b % 16) (by omega)
    rw [show ([61, hexDigitUpper (b / 16), hexDigitUpper (b % 16)] : List Nat) ++ tail =
      61 :: (hexDigitUpper (b / 16) :: (hexDigitUpper (b % 16) :: tail)) from rfl]
    simp only [qpStep]
    rw [if_pos trivial]
    rw [if_neg (fun hc => h1.2.2.1 hc.1), if_neg h1.2.2.2.1,
      if_pos ⟨h1.2.1, h2.2.1⟩, h1.1, h2.1]
    rw [show b / 16 * 16 + b % 16 = b from by omega]

theorem qpStep_shrinks (bs : List Nat) (hne : bs ≠ []) :
    (qpStep bs).2.length < bs.length := by
  cases bs with
  | nil => exact absurd rfl hne
  | cons b rest =>
    simp only [qpStep]
    by_cases hb : b = 61
    · rw [if_pos hb]
      cases rest with
      | nil => simp
      | cons a restx =>
        cases restx with
        | nil =>
          simp only
          split_ifs <;> simp
        | cons b2 rest2 =>
          simp only
          split_ifs <;> simp [List.length_cons] <;> omega
    · rw [if_neg hb]
      simp

theorem qpDecodeLoop_fuel (fuel : Nat) (bs : List Nat) (h : bs.length ≤ fuel) :
    qpDecodeLoop fuel bs = qpDecodeLoop bs.length bs := by
  induction fuel using Nat.strong_induction_on generalizing bs with
  | _ fuel ih =>
    cases fuel with
    | zero =>
      have : bs = [] := by
        cases bs with
        | nil => rfl
        | cons x xs => simp at h
      subst this
      rfl
    | succ f =>
      cases bs with
      | nil => rfl
      | cons b rest =>
        simp only [qpDecodeLoop]
        have hlt := qpStep_shrinks (b :: rest) (by simp)
        simp only [List.length_cons] at hlt h
        have e1 : qpDecodeLoop f (qpStep (b :: rest)).2 =
            qpDecodeLoop (qpStep (b :: rest)).2.length (qpStep (b :: rest)).2 :=
          ih f (by omega) _ (by omega)
        have e2 : qpDecodeLoop rest.length (qpStep (b :: rest)).2 =
            qpDecodeLoop (qpStep (b :: rest)).2.length (qpStep (b :: rest)).2 :=
          ih rest.length (by omega) _ (by omega)
        rw [e1, e2]

theorem qpEncodeByte_ne_nil (b : Nat) : qpEncodeByte b ≠ [] := by
  unfold qpEncodeByte
  split_ifs <;> simp

theorem qp_roundtrip (bs : List Nat) (h : ∀ x ∈ bs, x < 256) :
    qpDecodeBytes (qpEncode bs) = bs := by
  induction bs with
  | nil => rfl
  | cons b rest ih =>
    have hb := h b (by simp)
    have hrest := ih (fun x hx => h x (by simp [hx]))
    have henc : qpEncode (b :: rest) = qpEncodeByte b ++ qpEncode rest := by
      simp [qpEncode]
    rw [henc]
    have hstep := qpStep_encodeByte b hb (qpEncode rest)
    cases hF : qpEncodeByte b with
    | nil => exact absurd hF (qpEncodeByte_ne_nil b)
    | cons e etail =>
      rw [hF] at hstep
      unfold qpDecodeBytes
      rw [show (e :: etail) ++ qpEncode rest = e :: (etail ++ qpEncode rest) from rfl]
      rw [show (e :: (etail ++ qpEncode rest)).length =
        (etail ++ qpEncode rest).length + 1 from by simp]
      simp only [qpDecodeLoop]
      rw [show (e :: (etail ++ qpEncode rest) : List Nat) =
        (e :: etail) ++ qpEncode rest from rfl, hstep]
      simp only
      rw [qpDecodeLoop_fuel ((etail ++ qpEncode rest).length) (qpEncode rest) (by simp)]
      rw [show qpDecodeLoop (qpEncode rest).length (qpEncode rest) =
        qpDecodeBytes (qpEncode rest) from rfl, hrest]
      rfl

theorem qpEncode_lt (bs : List Nat) (h : ∀ x ∈ bs, x < 256) :
    ∀ x ∈ qpEncode bs, x < 256 := by
  intro x hx
  unfold qpEncode at hx
  rcases List.mem_flatten.mp hx with ⟨l, hl, hxl⟩
  rcases List.mem_map.mp hl with ⟨b, hbmem, rfl⟩
  have hb := h b hbmem
  unfold qpEncodeByte at hxl
  split_ifs at hxl with hc
  · simp only [List.mem_singleton] at hxl
    omega
  · simp only [List.mem_cons, List.not_mem_nil, or_false] at hxl
    have h1 : hexDigitUpper (b / 16) < 256 := by
      unfold hexDigitUpper; split_ifs <;> omega
    have h2 : hexDigitUpper (b % 16) < 256 := by
      unfold hexDigitUpper; split_ifs <;> omega
    rcases hxl with rfl | rfl | rfl <;> omega

/-! ## Charset-loop lemmas (claims C6, C7) -/

theorem firstSuccess_cons_some (n : String) (rest : List String) (bs r : List Nat)
    (h : decodeWith n bs = some r) : firstSuccess (n :: rest) bs = some r := by
  simp only [firstSuccess]
  rw [h]

theorem firstSuccess_cons_none (n : String) (rest : List String) (bs : List Nat)
    (h : decodeWith n bs = none) :
    firstSuccess (n :: rest) bs = firstSuccess rest bs := by
  simp only [firstSuccess]
  rw [h]

theorem firstSuccess_utf8 (bs cps : List Nat) (h : utf8Decode bs = some cps) :
    firstSuccess encodings_to_try bs = some cps := by
  unfold encodings_to_try
  exact firstSuccess_cons_some _ _ _ _ (show decodeWith "utf-8" bs = some cps from h)

theorem firstSuccess_utf8sig (bs cps : List Nat) (h1 : utf8Decode bs = none)
    (h2 : utf8SigDecode bs = some cps) :
    firstSuccess encodings_to_try bs = some cps := by
  unfold encodings_to_try
  rw [firstSuccess_cons_none _ _ _ (show decodeWith "utf-8" bs = none from h1)]
  exact firstSuccess_cons_some _ _ _ _ (show decodeWith "utf-8-sig" bs = some cps from h2)

theorem firstSuccess_latin1 (bs : List Nat) (h1 : utf8Decode bs = none)
    (h2 : utf8SigDecode bs = none) :
    firstSuccess encodings_to_try bs = some (latin1Decode bs) := by
  unfold encodings_to_try
  rw [firstSuccess_cons_none _ _ _ (show decodeWith "utf-8" bs = none from h1),
    firstSuccess_cons_none _ _ _ (show decodeWith "utf-8-sig" bs = none from h2)]
  exact firstSuccess_cons_some _ _ _ _ rfl

theorem firstSuccess_isSome (bs : List Nat) :
    (firstSuccess encodings_to_try bs).isSome := by
  cases h1 : utf8Decode bs with
  | some cps => rw [firstSuccess_utf8 bs cps h1]; rfl
  | none =>
    cases h2 : utf8SigDecode bs with
    | some cps => rw [firstSuccess_utf8sig bs cps h1 h2]; rfl
    | none => rw [firstSuccess_latin1 bs h1 h2]; rfl

/-! ## `_decode_msg` assembly lemmas (claims C6, C7) -/

theorem decodeMsg_some (data : String) (enc : Option String) (bs cps : List Nat)
    (hne : data ≠ "")
    (hb : b64uDecode (fixPadding data.data) = some bs)
    (hfs : firstSuccess encodings_to_try
      (if enc = some "quoted-printable" then qpDecodeBytes bs else bs) = some cps) :
    decodeMsg data enc = renderCps cps := by
  unfold decodeMsg
  rw [if_neg hne, hb]
  show (match firstSuccess encodings_to_try
      (if enc = some "quoted-printable" then qpDecodeBytes bs else bs) with
    | some cps => renderCps cps
    | none =>
      renderCps
        (utf8ReplaceDecode
          (if enc = some "quoted-printable" then qpDecodeBytes bs else bs).length
          (if enc = some "quoted-printable" then qpDecodeBytes bs else bs))) =
    renderCps cps
  rw [hfs]

theorem decodeMsg_b64_failure (data : String) (enc : Option String)
    (hne : data ≠ "") (hb : b64uDecode (fixPadding data.data) = none) :
    decodeMsg data enc = "[Failed to decode message body]" := by
  unfold decodeMsg
  rw [if_neg hne, hb]

theorem b64_full_roundtrip (bs : List Nat) (h : ∀ x ∈ bs, x < 256) :
    b64uDecode (fixPadding (b64uEncodeBytes bs)) = some bs := by
  rw [show b64uEncodeBytes bs =
    b64uEncodeBody bs ++ List.replicate (b64uPadLen bs - 0) '=' from by
      rw [Nat.sub_zero]
      rfl]
  rw [fixPadding_stripped bs 0 (Nat.zero_le _)]
  exact b64uDecode_encode bs h

theorem utf8EncodeChar_ne_nil (c : Nat) : utf8EncodeChar c ≠ [] := by
  unfold utf8EncodeChar
  split_ifs <;> simp

theorem utf8Encode_ne_nil (cps : List Nat) (h : cps ≠ []) : utf8Encode cps ≠ [] := by
  cases cps with
  | nil => exact absurd rfl h
  | cons c rest =>
    rw [show utf8Encode (c :: rest) = utf8EncodeChar c ++ utf8Encode rest from by
      simp [utf8Encode]]
    intro hcon
    exact utf8EncodeChar_ne_nil c (List.append_eq_nil.mp hcon).1

theorem qpEncode_ne_nil (bs : List Nat) (h : bs ≠ []) : qpEncode bs ≠ [] := by
  cases bs with
  | nil => exact absurd rfl h
  | cons b rest =>
    rw [show qpEncode (b :: rest) = qpEncodeByte b ++ qpEncode rest from by
      simp [qpEncode]]
    intro hcon
    exact qpEncodeByte_ne_nil b (List.append_eq_nil.mp hcon).1

theorem b64uEncodeBody_ne_nil (bs : List Nat) (h : bs ≠ []) :
    b64uEncodeBody bs ≠ [] := by
  cases bs with
  | nil => exact absurd rfl h
  | cons a rest =>
    unfold b64uEncodeBody
    cases rest with
    | nil => simp [b64uSextets]
    | cons b rest2 =>
      cases rest2 with
      | nil => simp [b64uSextets]
      | cons c rest3 => simp [b64uSextets]

theorem stringMk_ne_empty (l : List Char) (h : l ≠ []) : String.mk l ≠ "" := by
  intro hcon
  exact h (congrArg String.data hcon)

theorem string_eq_empty_of_data (s : String) (h : s.data = []) : s = "" := by
  cases s with
  | mk l =>
    have h2 : l = [] := h
    subst h2
    rfl

/-- Round trip through the encoded body with `k` missing padding characters,
re-padded by `_decode_msg`. -/
theorem decode_roundtrip_general (s : String) (k : Nat)
    (hk : k ≤ b64uPadLen (utf8Encode (s.data.map Char.toNat))) :
    decodeMsg
      (String.mk
        (b64uEncodeBody (utf8Encode (s.data.map Char.toNat)) ++
          List.replicate (b64uPadLen (utf8Encode (s.data.map Char.toNat)) - k) '='))
      none = s := by
  have hvalid := string_scalars_valid s
  have hbytes := utf8Encode_lt (s.data.map Char.toNat) hvalid
  by_cases hs : s.data = []
  · rw [hs] at hk ⊢
    rw [show utf8Encode (List.map Char.toNat []) = [] from rfl] at hk ⊢
    rw [show b64uPadLen [] = 0 from rfl] at hk ⊢
    have hk0 : k = 0 := by omega
    subst hk0
    rw [string_eq_empty_of_data s hs]
    rfl
  · have hcps : s.data.map Char.toNat ≠ [] := by
      intro hcon
      exact hs (List.map_eq_nil.mp hcon)
    have hbody := b64uEncodeBody_ne_nil _ (utf8Encode_ne_nil _ hcps)
    have hne : String.mk
        (b64uEncodeBody (utf8Encode (s.data.map Char.toNat)) ++
          List.replicate (b64uPadLen (utf8Encode (s.data.map Char.toNat)) - k) '=') ≠
        "" := by
      apply stringMk_ne_empty
      intro hcon
      exact hbody (List.append_eq_nil.mp hcon).1
    have hb : b64uDecode
        (fixPadding
          (b64uEncodeBody (utf8Encode (s.data.map Char.toNat)) ++
            List.replicate (b64uPadLen (utf8Encode (s.data.map Char.toNat)) - k) '=')) =
        some (utf8Encode (s.data.map Char.toNat)) := by
      rw [fixPadding_stripped _ k hk]
      exact b64uDecode_encode _ hbytes
    have hfs : firstSuccess encodings_to_try (utf8Encode (s.data.map Char.toNat)) =
        some (s.data.map Char.toNat) :=
      firstSuccess_utf8 _ _ (utf8_roundtrip _ hvalid)
    rw [decodeMsg_some _ none (utf8Encode (s.data.map Char.toNat))
      (s.data.map Char.toNat) hne hb (by rw [if_neg (by simp)]; exact hfs)]
    exact renderCps_map_toNat s

/-- C6: base64url-encoding a UTF-8 text and feeding it to `_decode_msg` (no
transfer-encoding hint) reproduces the text exactly; this still holds with
any number of the trailing padding characters stripped (the code re-pads to a
multiple of four before decoding; a valid encoding has at most two, so the
one-, two-, and three-missing cases of the claim are all covered); and with
the `quoted-printable` hint, quoted-printable-encoded bytes decode back to the
original text after the combined base64-then-QP decode. -/
theorem C6_roundtrip_decoding :
    (∀ s : String,
      decodeMsg (String.mk (b64uEncodeBytes (utf8Encode (s.data.map Char.toNat))))
        none = s) ∧
    (∀ (s : String) (k : Nat), k ≤ b64uPadLen (utf8Encode (s.data.map Char.toNat)) →
      decodeMsg
        (String.mk
          (b64uEncodeBody (utf8Encode (s.data.map Char.toNat)) ++
            List.replicate (b64uPadLen (utf8Encode (s.data.map Char.toNat)) - k) '='))
        none = s) ∧
    (∀ s : String,
      decodeMsg
        (String.mk (b64uEncodeBytes (qpEncode (utf8Encode (s.data.map Char.toNat)))))
        (some "quoted-printable") = s) := by
  refine ⟨?_, ?_, ?_⟩
  · intro s
    have h := decode_roundtrip_general s 0 (Nat.zero_le _)
    rw [Nat.sub_zero] at h
    exact h
  · exact decode_roundtrip_general
  · intro s
    have hvalid := string_scalars_valid s
    have hbytes := utf8Encode_lt (s.data.map Char.toNat) hvalid
    have hqbytes := qpEncode_lt _ hbytes
    by_cases hs : s.data = []
    · rw [hs]
      rw [string_eq_empty_of_data s hs]
      rfl
    · have hcps : s.data.map Char.toNat ≠ [] := by
        intro hcon
        exact hs (List.map_eq_nil.mp hcon)
      have hqne := qpEncode_ne_nil _ (utf8Encode_ne_nil _ hcps)
      have hbody := b64uEncodeBody_ne_nil _ hqne
      have hne : String.mk
          (b64uEncodeBytes (qpEncode (utf8Encode (s.data.map Char.toNat)))) ≠ "" := by
        apply stringMk_ne_empty
        unfold b64uEncodeBytes
        intro hcon
        exact hbody (List.append_eq_nil.mp hcon).1
      have hb := b64_full_roundtrip _ hqbytes
      have hqp := qp_roundtrip _ hbytes
      have hfs : firstSuccess encodings_to_try (utf8Encode (s.data.map Char.toNat)) =
          some (s.data.map Char.toNat) :=
        firstSuccess_utf8 _ _ (utf8_roundtrip _ hvalid)
      rw [decodeMsg_some _ (some "quoted-printable")
        (qpEncode (utf8Encode (s.data.map Char.toNat))) (s.data.map Char.toNat) hne hb
        (by rw [if_pos rfl, hqp]; exact hfs)]
      exact renderCps_map_toNat s

/-- C6 witness: the padding clause applied with one stripped padding
character on the two-byte text `"Hi"` (whose encoding carries one `=`). -/
theorem C6_roundtrip_decoding_witness :
    decodeMsg
        (String.mk
          (b64uEncodeBody (utf8Encode ("Hi".data.map Char.toNat)) ++
            List.replicate (b64uPadLen (utf8Encode ("Hi".data.map Char.toNat)) - 1) '='))
        none = "Hi" := by
  exact C6_roundtrip_decoding.2.1 "Hi" 1 (by decide)

/-- C7: `_decode_msg` is total and never raises: empty data returns `""`; a
base64 failure is caught and returns the failure placeholder; for any decoded
byte string the charset loop (utf-8, then utf-8-sig, then iso-8859-1, then
windows-1252, then ascii, in priority order) always succeeds — at the
iso-8859-1 attempt at the latest, since that decode is total — so the result
is the first successful charset decode and the post-loop lossy-replacement
and byte-count-placeholder fallbacks are never needed. -/
theorem C7_decode_totality :
    (∀ enc, decodeMsg "" enc = "") ∧
    (∀ (data : String) (enc : Option String), data ≠ "" →
      b64uDecode (fixPadding data.data) = none →
      decodeMsg data enc = "[Failed to decode message body]") ∧
    (∀ (data : String) (enc : Option String) (bs : List Nat), data ≠ "" →
      b64uDecode (fixPadding data.data) = some bs →
      ∃ cps, firstSuccess encodings_to_try
          (if enc = some "quoted-printable" then qpDecodeBytes bs else bs) = some cps ∧
        decodeMsg data enc = renderCps cps) ∧
    (∀ bs cps, utf8Decode bs = some cps →
      firstSuccess encodings_to_try bs = some cps) ∧
    (∀ bs cps, utf8Decode bs = none → utf8SigDecode bs = some cps →
      firstSuccess encodings_to_try bs = some cps) ∧
    (∀ bs, utf8Decode bs = none → utf8SigDecode bs = none →
      firstSuccess encodings_to_try bs = some (latin1Decode bs)) ∧
    (∀ bs, (firstSuccess encodings_to_try bs).isSome) := by
  refine ⟨?_, decodeMsg_b64_failure, ?_, firstSuccess_utf8, firstSuccess_utf8sig,
    firstSuccess_latin1, firstSuccess_isSome⟩
  · intro enc
    rfl
  · intro data enc bs hne hb
    have hsome := firstSuccess_isSome
      (if enc = some "quoted-printable" then qpDecodeBytes bs else bs)
    cases hfs : firstSuccess encodings_to_try
        (if enc = some "quoted-printable" then qpDecodeBytes bs else bs) with
    | none => rw [hfs] at hsome; cases hsome
    | some cps => exact ⟨cps, rfl, decodeMsg_some data enc bs cps hne hb hfs⟩

/-- C7 witness: the failure-placeholder clause on all-foreign input and the
successful-decode clause on a valid payload. -/
theorem C7_decode_totality_witness :
    decodeMsg "!!!!" none = "[Failed to decode message body]" ∧
    (∃ cps, firstSuccess encodings_to_try
        (if (none : Option String) = some "quoted-printable" then
          qpDecodeBytes [104, 105] else [104, 105]) = some cps ∧
      decodeMsg "aGk=" none = renderCps cps) := by
  constructor
  · exact C7_decode_totality.2.1 "!!!!" none (by decide) (by decide)
  · exact C7_decode_totality.2.2.1 "aGk=" none [104, 105] (by decide) (by decide)

/-! ## Reply-construction lemmas (claim C3) -/

theorem rawDecode_rawEncode (s : String) : rawDecode (rawEncode s) = some s := by
  have hb : b64uDecode (rawEncode s).data =
      some (utf8Encode (s.data.map Char.toNat)) := by
    rw [show (rawEncode s).data =
      b64uEncodeBody (utf8Encode (s.data.map Char.toNat)) ++
        List.replicate (b64uPadLen (utf8Encode (s.data.map Char.toNat))) '=' from rfl]
    exact b64uDecode_encode _ (utf8Encode_lt _ (string_scalars_valid s))
  unfold rawDecode
  rw [hb]
  show (match utf8Decode (utf8Encode (s.data.map Char.toNat)) with
    | none => none
    | some cps => some (renderCps cps)) = some s
  rw [utf8_roundtrip _ (string_scalars_valid s)]
  show some (renderCps (s.data.map Char.toNat)) = some s
  rw [renderCps_map_toNat s]

theorem replaceFirst_of_not_contains (pat repl : List Char) (s : List Char)
    (h : containsSeq pat s = false) : replaceFirst pat repl s = s := by
  induction s with
  | nil => rfl
  | cons a rest ih =>
    rw [containsSeq, Bool.or_eq_false_iff] at h
    rw [replaceFirst, if_neg (by rw [h.1]; exact Bool.false_ne_true), ih h.2]

theorem replyMime_headersOf (env : MimeEnv) (orig : OriginalMessage)
    (sender body : String) (html_body : Option String) (reply_all : Bool)
    (attachments : Option (List String)) :
    (replyMime env orig sender body html_body reply_all attachments).headersOf =
      composeHeaders (PyStrOrList.str sender) (replySubject orig.headers)
        ((replyCc orig.headers reply_all).map PyStrOrList.str) none := by
  unfold replyMime create_message
  cases pyTruthyList attachments || pyTruthyStr html_body with
  | true => rfl
  | false => rfl

/-- C3: when the original carries a `From` and a truthy `Message-ID` and the
serialized reply contains no `'\r\n\r\n'` (the default email policy emits
`'\n'` line endings, so this covers every header/body content without literal
CRLFs), the reply is addressed to the original sender, the subject gets the
`Re: ` treatment, a `reply_all` Cc combines the original To and Cc, and the
original thread id is carried — but the In-Reply-To/References splice is a
no-op: `str.replace('\r\n\r\n', ...)` finds no occurrence, so the sent raw
payload is exactly the unmodified serialized message, against the claim (and
the §8 scenario), which require the injected threading headers. -/
theorem C3_reply_threading (render : MimeMessage → String) (env : MimeEnv)
    (orig : OriginalMessage) (sender body : String) (html_body : Option String)
    (reply_all : Bool) (attachments : Option (List String))
    (hfrom : headerGet orig.headers "from" = some sender)
    (hmid : pyTruthyStr (headerGet orig.headers "message-id") = true)
    (hnosep : containsSeq ("\r\n\r\n".data)
      (render (replyMime env orig sender body html_body reply_all
        attachments)).data = false) :
    (replyMime env orig sender body html_body reply_all attachments).headersOf =
      composeHeaders (PyStrOrList.str sender) (replySubject orig.headers)
        ((replyCc orig.headers reply_all).map PyStrOrList.str) none ∧
    reply_to_message render env orig body html_body reply_all attachments =
      Except.ok (GmailSendBody.mk
        (rawEncode (render (replyMime env orig sender body html_body reply_all
          attachments)))
        orig.threadId) := by
  refine ⟨replyMime_headersOf env orig sender body html_body reply_all attachments, ?_⟩
  unfold reply_to_message
  rw [hfrom]
  show (if pyTruthyStr (headerGet orig.headers "message-id") = true then _ else _) = _
  rw [hmid, if_pos rfl, rawDecode_rawEncode]
  show Except.ok (GmailSendBody.mk
      (rawEncode (String.mk (replaceFirst ("\r\n\r\n".data)
        ((injectedHeaders ((headerGet orig.headers "message-id").getD "")
          (replyReferences orig.headers
            ((headerGet orig.headers "message-id").getD ""))).data)
        (render (replyMime env orig sender body html_body reply_all
          attachments)).data)))
      orig.threadId) = _
  rw [replaceFirst_of_not_contains _ _ _ hnosep]

/-- C3 witness: the §8 scenario (`Message-ID: <abc@x>`, `From: a@x`,
`Subject: Hello`, `reply_all = false`).  The reply is addressed to `a@x` with
subject `Re: Hello` and thread id `t1`, yet its raw payload is the encoding
of a serialization that contains no `In-Reply-To` header at all. -/
theorem C3_reply_threading_witness :
    ((replyMime (MimeEnv.mk (fun _ => true) (fun _ => none))
        (OriginalMessage.mk
          [("Message-ID", "<abc@x>"), ("From", "a@x"), ("Subject", "Hello")] "t1")
        "a@x" "Hello body" none false none).headersOf =
      composeHeaders (PyStrOrList.str "a@x")
        (replySubject [("Message-ID", "<abc@x>"), ("From", "a@x"),
          ("Subject", "Hello")])
        ((replyCc [("Message-ID", "<abc@x>"), ("From", "a@x"),
          ("Subject", "Hello")] false).map PyStrOrList.str) none ∧
    reply_to_message compatRenderSingle (MimeEnv.mk (fun _ => true) (fun _ => none))
      (OriginalMessage.mk
        [("Message-ID", "<abc@x>"), ("From", "a@x"), ("Subject", "Hello")] "t1")
      "Hello body" none false none =
      Except.ok (GmailSendBody.mk
        (rawEncode (compatRenderSingle (replyMime
          (MimeEnv.mk (fun _ => true) (fun _ => none))
          (OriginalMessage.mk
            [("Message-ID", "<abc@x>"), ("From", "a@x"), ("Subject", "Hello")] "t1")
          "a@x" "Hello body" none false none)))
        "t1")) ∧
    containsSeq ("In-Reply-To".data)
      (compatRenderSingle (replyMime (MimeEnv.mk (fun _ => true) (fun _ => none))
        (OriginalMessage.mk
          [("Message-ID", "<abc@x>"), ("From", "a@x"), ("Subject", "Hello")] "t1")
        "a@x" "Hello body" none false none)).data = false :=
  ⟨C3_reply_threading compatRenderSingle (MimeEnv.mk (fun _ => true) (fun _ => none))
    (OriginalMessage.mk
      [("Message-ID", "<abc@x>"), ("From", "a@x"), ("Subject", "Hello")] "t1")
    "a@x" "Hello body" none false none (by decide) (by decide) (by decide),
  by decide⟩

end ItsFriday
